import Mathlib

/-!
# Verification of the MessKIpro measurement-protocol assistant (src/main.py)

Shallow embedding of the algorithmic core of `src/main.py`:

* `IsoFitsCalculator._load_data` / `IsoFitsCalculator.calculate` (tolerance table),
* `DXFWidget.find_closest_dimension` / `find_closest_text` (entity picking),
* `get_dimension_value` (numeric value resolution for a dimension),
* `MessprotokollWidget._update_soll_wert` (SOLL/target computation),
* `MessprotokollWidget._save_protokoll` / `_load_protokoll_from_excel` (round trip).

Numbers are embedded as rationals (`ℚ`): Python floats are modelled exactly on
the decimal values the program manipulates; binary rounding of IEEE doubles is
out of scope.  Euclidean distances are represented by their squares (a strictly
monotone transform), so every comparison `dist < radius` of the source appears
here as `distSq < radius^2`; actual distances are recovered with `Real.sqrt`
in the theorems that speak about concrete distance values.
-/

/-! ## Python string primitives used by `main.py` -/

/-- Decimal digit test, as used by the regex class `\d` (ASCII digits). -/
def isDig (c : Char) : Bool := c.isDigit

/-- Value of one ASCII digit. -/
def digitVal (c : Char) : ℕ := c.toNat - '0'.toNat

/-- Value of a digit string, most significant first (`int("…")` semantics). -/
def natOfDigits (l : List Char) : ℕ := l.foldl (fun a c => 10 * a + digitVal c) 0

/-- Python `str.strip()` (whitespace normalisation; ASCII whitespace). -/
def pyStrip (l : List Char) : List Char :=
  ((l.dropWhile Char.isWhitespace).reverse.dropWhile Char.isWhitespace).reverse

/-- `str.strip()` packaged on `String`. -/
def pyStripS (s : String) : String := ⟨pyStrip s.data⟩

/-- Python `str.lower()` (the fit labels are ASCII). -/
def toLowerStr (s : String) : String := ⟨s.data.map Char.toLower⟩

/-- Python `text.replace(c, d)` for single characters (`','` → `'.'` etc.). -/
def pyReplaceChar (c d : Char) (l : List Char) : List Char :=
  l.map fun x => if x = c then d else x

/-- `text.replace(',', '.')` on `String`, as in `_update_soll_wert` and
`get_dimension_value`. -/
def commaToDot (s : String) : String := ⟨pyReplaceChar ',' '.' s.data⟩

/-! ## Python `float(...)` on decimal literals

`float` accepts `[sign] (digits [. digits] | . digits | digits .) [(e|E) [sign] digits]`
surrounded by whitespace.  The `inf`/`nan` spellings and `_` digit separators
are not modelled (the program never feeds them on purpose). -/

/-- Split a leading digit run. -/
def splitDigits (l : List Char) : List Char × List Char :=
  (l.takeWhile isDig, l.dropWhile isDig)

/-- Optional sign, returning the factor and the rest. -/
def readSign (l : List Char) : ℚ × List Char :=
  match l with
  | '+' :: r => (1, r)
  | '-' :: r => (-1, r)
  | _ => (1, l)

/-- Mantissa part of a Python float literal: `digits[.digits]`, `.digits` or
`digits.`; returns its value and the unconsumed rest. -/
def pyFloatMantissa (l : List Char) : Option (ℚ × List Char) :=
  let ip := (splitDigits l).1
  let r1 := (splitDigits l).2
  match r1 with
  | '.' :: r2 =>
    let fp := (splitDigits r2).1
    let r3 := (splitDigits r2).2
    if ip = [] ∧ fp = [] then none
    else some ((natOfDigits ip : ℚ) + (natOfDigits fp : ℚ) / 10 ^ fp.length, r3)
  | _ => if ip = [] then none else some ((natOfDigits ip : ℚ), r1)

/-- Optional exponent suffix `(e|E)[sign]digits`; the whole rest must be it. -/
def pyFloatExpPart (q : ℚ) (l : List Char) : Option ℚ :=
  match l with
  | [] => some q
  | c :: r =>
    if c = 'e' ∨ c = 'E' then
      let sg := (readSign r).1
      let r2 := (readSign r).2
      let ds := (splitDigits r2).1
      let r3 := (splitDigits r2).2
      if ds = [] ∨ r3 ≠ [] then none
      else some (q * 10 ^ ((if sg < 0 then -(natOfDigits ds : ℤ) else (natOfDigits ds : ℤ))))
    else none

/-- Python `float(s)` on decimal literals, `none` on `ValueError`. -/
def pyFloat (s : String) : Option ℚ :=
  let l := pyStrip s.data
  let sg := (readSign l).1
  let l2 := (readSign l).2
  match pyFloatMantissa l2 with
  | none => none
  | some (q, rest) => (pyFloatExpPart q rest).map (fun v => sg * v)

/-! ## The regex `re.search(r'[-+]?\d*\.?\d+', text)`

Leftmost match with Python's greedy backtracking, specialised to this
pattern.  `matchNum` matches `\d*\.?\d+` at the head of a list; `matchAt`
adds the optional sign; `pySearchNum` scans positions left to right. -/

/-- Match `\d*\.?\d+` at the head of `l` (greedy, with backtracking). -/
def matchNum (l : List Char) : Option (List Char) :=
  let k := (splitDigits l).1.length
  match (splitDigits l).2 with
  | '.' :: r2 =>
    let m := (splitDigits r2).1
    if m ≠ [] then some ((splitDigits l).1 ++ '.' :: m)
    else if k ≠ 0 then some (splitDigits l).1 else none
  | _ => if k ≠ 0 then some (splitDigits l).1 else none

/-- Match `[-+]?\d*\.?\d+` at the head of `l`. -/
def matchAt (l : List Char) : Option (List Char) :=
  match l with
  | [] => none
  | c :: rest =>
    if c = '+' ∨ c = '-' then
      match matchNum rest with
      | some m => some (c :: m)
      | none => matchNum l
    else matchNum l

/-- `re.search`: first position (left to right) where the pattern matches. -/
def pySearchNum : List Char → Option (List Char)
  | [] => none
  | c :: rest =>
    match matchAt (c :: rest) with
    | some m => some m
    | none => pySearchNum rest

/-- `float(match.group(0))` composed with the search, after the program's
`text.replace(',', '.')` cleaning: the first signed decimal number in `s`. -/
def firstNumberIn (s : String) : Option ℚ :=
  (pySearchNum (pyReplaceChar ',' '.' s.data)).bind fun m => pyFloat ⟨m⟩

/-! ## `IsoFitsCalculator` (src/main.py lines 56–84) -/

/-- One row of `tolerances.json`: fit class, size range (µm deviations). -/
structure ToleranceEntry where
  toleranzklasse : String
  lowerlimit : ℚ
  upperlimit : ℚ
  es : ℚ
  ei : ℚ
deriving DecidableEq

/-- The row test of `IsoFitsCalculator.calculate`:
`entry["toleranzklasse"].lower() == fit_string.lower()
 and entry["lowerlimit"] < nominal_size <= entry["upperlimit"]`. -/
def entryMatches (n : ℚ) (fit : String) (e : ToleranceEntry) : Prop :=
  toLowerStr e.toleranzklasse = toLowerStr fit ∧ e.lowerlimit < n ∧ n ≤ e.upperlimit

instance (n : ℚ) (fit : String) (e : ToleranceEntry) : Decidable (entryMatches n fit e) := by
  unfold entryMatches; infer_instance

/-- The `for entry in self.tolerances_data` loop of `calculate`: first
matching row wins, deviations are divided by 1000 (µm → mm). -/
def calculateScan (n : ℚ) (fit : String) : List ToleranceEntry → Option (ℚ × ℚ)
  | [] => none
  | e :: rest =>
    if entryMatches n fit e then some (e.es / 1000, e.ei / 1000)
    else calculateScan n fit rest

/-- `IsoFitsCalculator.calculate`, including the early
`if not self.tolerances_data: return None`. -/
def calculate (table : List ToleranceEntry) (n : ℚ) (fit : String) : Option (ℚ × ℚ) :=
  if table.isEmpty then none else calculateScan n fit table

theorem calculateScan_eq_none (n : ℚ) (fit : String) (table : List ToleranceEntry) :
    calculateScan n fit table = none ↔ ∀ e ∈ table, ¬ entryMatches n fit e := by
  induction table with
  | nil => simp [calculateScan]
  | cons e rest ih =>
    by_cases h : entryMatches n fit e
    · simp [calculateScan, h]
    · simp [calculateScan, h, ih]

theorem calculateScan_eq_some (n : ℚ) (fit : String) (table : List ToleranceEntry)
    (u l : ℚ) :
    calculateScan n fit table = some (u, l) ↔
      ∃ pre e post, table = pre ++ e :: post ∧ entryMatches n fit e ∧
        (∀ e' ∈ pre, ¬ entryMatches n fit e') ∧ u = e.es / 1000 ∧ l = e.ei / 1000 := by
  induction table with
  | nil =>
    simp only [calculateScan]
    constructor
    · intro h; cases h
    · rintro ⟨pre, e, post, h, -⟩
      exact absurd h (by simp)
  | cons a rest ih =>
    by_cases h : entryMatches n fit a
    · simp only [calculateScan, if_pos h]
      constructor
      · intro he
        refine ⟨[], a, rest, by simp, h, by simp, ?_, ?_⟩
        · exact (Prod.mk.injEq _ _ _ _ ▸ (Option.some.injEq _ _ ▸ he)).1.symm
        · exact (Prod.mk.injEq _ _ _ _ ▸ (Option.some.injEq _ _ ▸ he)).2.symm
      · rintro ⟨pre, e, post, hsplit, hm, hpre, hu, hl⟩
        cases pre with
        | nil =>
          simp only [List.nil_append, List.cons.injEq] at hsplit
          subst hu hl
          rw [hsplit.1]
        | cons p ps =>
          simp only [List.cons_append, List.cons.injEq] at hsplit
          exact absurd (hsplit.1 ▸ h) (hpre p (by simp))
    · simp only [calculateScan, if_neg h, ih]
      constructor
      · rintro ⟨pre, e, post, hsplit, hm, hpre, hu, hl⟩
        exact ⟨a :: pre, e, post, by rw [hsplit]; rfl, hm,
          by intro e' he'; rcases List.mem_cons.mp he' with h1 | h1
             · exact h1 ▸ h
             · exact hpre e' h1, hu, hl⟩
      · rintro ⟨pre, e, post, hsplit, hm, hpre, hu, hl⟩
        cases pre with
        | nil =>
          simp only [List.nil_append, List.cons.injEq] at hsplit
          exact absurd (hsplit.1 ▸ hm) h
        | cons p ps =>
          simp only [List.cons_append, List.cons.injEq] at hsplit
          exact ⟨ps, e, post, hsplit.2, hm, fun e' he' => hpre e' (by simp [he']), hu, hl⟩

/-- C1: `IsoFitsCalculator.calculate` returns `(es/1000, ei/1000)` from the
first table row whose fit class equals the label case-insensitively and whose
range satisfies `lowerlimit < nominal ≤ upperlimit`; it returns `none` exactly
when no row satisfies both conditions, and table order is the tie-break. -/
theorem calculate_resolves_first_matching_row (table : List ToleranceEntry)
    (n : ℚ) (fit : String) :
    (calculate table n fit = none ↔ ∀ e ∈ table, ¬ entryMatches n fit e) ∧
    (∀ u l, calculate table n fit = some (u, l) ↔
      ∃ pre e post, table = pre ++ e :: post ∧ entryMatches n fit e ∧
        (∀ e' ∈ pre, ¬ entryMatches n fit e') ∧ u = e.es / 1000 ∧ l = e.ei / 1000) := by
  unfold calculate
  by_cases ht : table.isEmpty
  · rw [List.isEmpty_iff] at ht
    subst ht
    constructor
    · simp
    · intro u l
      simp only [if_pos List.isEmpty_nil]
      constructor
      · intro h; cases h
      · rintro ⟨pre, e, post, h, -⟩
        exact absurd h (by simp)
  · simp only [if_neg ht]
    exact ⟨calculateScan_eq_none n fit table, fun u l => calculateScan_eq_some n fit table u l⟩

/-! ## Fixed-point formatting: Python `f"{x:.4f}"`

Modelled as exact decimal rounding (round half to even) of the rational value;
the intermediate IEEE-754 binary representation of the source is abstracted
away. -/

/-- Floor of a rational, computable (`Int.fdiv` floors for positive `den`). -/
def ratFloor (q : ℚ) : ℤ := Int.fdiv q.num q.den

/-- Round to the nearest integer, ties to even (Python's float formatting). -/
def roundHalfEven (q : ℚ) : ℤ :=
  let n := ratFloor q
  let f := q - n
  if f < 1 / 2 then n else if 1 / 2 < f then n + 1 else if n % 2 = 0 then n else n + 1

/-- Zero-pad a number below 10000 to four digits. -/
def pad4 (m : ℕ) : List Char :=
  List.replicate (4 - (toString m).data.length) '0' ++ (toString m).data

/-- `f"{q:.4f}"`: sign, integer part, `'.'`, four fraction digits. -/
def fmtFixed4 (q : ℚ) : List Char :=
  let n := roundHalfEven (q * 10000)
  let a := n.natAbs
  (if n < 0 then ['-'] else []) ++ (toString (a / 10000)).data ++ '.' :: pad4 (a % 10000)

/-- `.replace('.', ',')` applied to the formatted value, as in
`_update_soll_wert` and `on_dimension_value_received`. -/
def dotToComma (l : List Char) : List Char := pyReplaceChar '.' ',' l

/-! ## `MessprotokollWidget._update_soll_wert` (src/main.py lines 729–737) -/

/-- `float(field_text.replace(',', '.') or 0)`: the empty string is falsy and
becomes `0`; otherwise Python `float` parsing, `none` on `ValueError`. -/
def parsedOrZero (s : String) : Option ℚ :=
  if (commaToDot s).data = [] then some 0 else pyFloat (commaToDot s)

/-- `_update_soll_wert`: the SOLL label text computed from the three field
texts — `nominal + (upper_tol + lower_tol) / 2.0` formatted `".4f"` with the
decimal point replaced by a comma, or `"---"` when a field fails to parse. -/
def updateSollWert (nominalText upperText lowerText : String) : String :=
  match parsedOrZero nominalText, parsedOrZero upperText, parsedOrZero lowerText with
  | some n, some u, some l => ⟨dotToComma (fmtFixed4 (n + (u + l) / 2))⟩
  | _, _, _ => "---"

theorem dot_mem_fmtFixed4 (q : ℚ) : '.' ∈ fmtFixed4 q := by
  simp [fmtFixed4]

theorem sollDisplay_ne_dashes (q : ℚ) :
    (⟨dotToComma (fmtFixed4 q)⟩ : String) ≠ "---" := by
  intro h
  have hdata : dotToComma (fmtFixed4 q) = "---".data := congrArg String.data h
  have hc : ',' ∈ dotToComma (fmtFixed4 q) := by
    have := dot_mem_fmtFixed4 q
    exact hdata ▸ (hdata ▸ List.mem_map_of_mem (fun x => if x = '.' then ',' else x) this)
  rw [hdata] at hc
  simp at hc

/-- C4: the displayed SOLL/target value for parsed nominal `N`, upper
deviation `U` and lower deviation `L` is `N + (U + L) / 2`, rendered to four
decimal places with a decimal comma; e.g. `N = 10`, `U = +0.02`, `L = -0.01`
yields `10.005` (displayed `"10,0050"`). -/
theorem soll_target_formula :
    (∀ ns us ls (N U L : ℚ), parsedOrZero ns = some N → parsedOrZero us = some U →
      parsedOrZero ls = some L →
      updateSollWert ns us ls = ⟨dotToComma (fmtFixed4 (N + (U + L) / 2))⟩) ∧
    ((10 : ℚ) + (2 / 100 + -(1 / 100)) / 2 = 10005 / 1000) := by
  constructor
  · intro ns us ls N U L hN hU hL
    simp [updateSollWert, hN, hU, hL]
  · norm_num

unseal Rat.add Rat.sub Rat.mul Rat.inv Nat.gcd in
theorem soll_target_formula_witness :
    updateSollWert "10" "+0,02" "-0,01" =
      ⟨dotToComma (fmtFixed4 ((10 : ℚ) + (2 / 100 + -(1 / 100)) / 2))⟩ ∧
    updateSollWert "10" "+0,02" "-0,01" = "10,0050" :=
  ⟨soll_target_formula.1 "10" "+0,02" "-0,01" 10 (2 / 100) (-(1 / 100))
    (by decide) (by decide) (by decide),
   by decide⟩

/-- C10: an empty nominal or tolerance field is treated as the number 0, not
as a parse failure: all three fields empty displays `0` to four decimals
(`"0,0000"`); nominal parsed as `N` with both tolerance fields empty displays
`N`; and `"---"` appears exactly when some field text fails
`float(text.replace(',', '.') or 0)` — which requires that text to be
non-empty and unparseable. -/
theorem soll_empty_fields_are_zero :
    updateSollWert "" "" "" = ⟨dotToComma (fmtFixed4 (0 : ℚ))⟩ ∧
    (∀ ns (N : ℚ), parsedOrZero ns = some N →
      updateSollWert ns "" "" = ⟨dotToComma (fmtFixed4 N)⟩) ∧
    (∀ a b c, updateSollWert a b c = "---" ↔
      parsedOrZero a = none ∨ parsedOrZero b = none ∨ parsedOrZero c = none) ∧
    (∀ s, parsedOrZero s = none → s ≠ "" ∧ pyFloat (commaToDot s) = none) := by
  have hzero : parsedOrZero "" = some 0 := rfl
  refine ⟨?_, ?_, ?_, ?_⟩
  · show updateSollWert "" "" "" = _
    simp only [updateSollWert, hzero]
    norm_num
  · intro ns N hN
    simp only [updateSollWert, hN, hzero]
    norm_num
  · intro a b c
    rcases ha : parsedOrZero a with _ | va <;>
      rcases hb : parsedOrZero b with _ | vb <;>
      rcases hc : parsedOrZero c with _ | vc <;>
      simp [updateSollWert, ha, hb, hc, sollDisplay_ne_dashes]
  · intro s hs
    by_cases he : (commaToDot s).data = []
    · have : parsedOrZero s = some 0 := by unfold parsedOrZero; rw [if_pos he]
      rw [this] at hs
      cases hs
    · constructor
      · intro h
        exact he (by rw [h]; rfl)
      · exact (if_neg he : parsedOrZero s = pyFloat (commaToDot s)) ▸ hs

unseal Rat.add Rat.sub Rat.mul Rat.inv Nat.gcd in
theorem soll_empty_fields_are_zero_witness :
    updateSollWert "" "" "" = "0,0000" ∧
    (updateSollWert "7,5" "" "" = ⟨dotToComma (fmtFixed4 (15 / 2 : ℚ))⟩) ∧
    ("x" ≠ "" ∧ pyFloat (commaToDot "x") = none) :=
  ⟨soll_empty_fields_are_zero.1.trans (by decide),
   soll_empty_fields_are_zero.2.1 "7,5" (15 / 2) (by decide),
   soll_empty_fields_are_zero.2.2.2 "x" (by decide)⟩

/-! ## Geometry

2D points with rational coordinates (scene coordinates; the picker works in
the drawing plane, `z = 0`).  Distances are represented by their squares, so
the radius parameter of the pickers below is the squared search radius. -/

/-- A point of the drawing plane. -/
structure Pt where
  x : ℚ
  y : ℚ
deriving DecidableEq

/-- Squared Euclidean distance (`Vec3.distance` squared). -/
def distSq (p q : Pt) : ℚ := (p.x - q.x) ^ 2 + (p.y - q.y) ^ 2

/-! ## Point-to-segment distance

Modelled from the spec: the point-to-segment distance routine (projection
parameter `t` of point `P` onto segment `A→B` clamped to `[0,1]`, Euclidean
distance from `P` to the clamped point, degenerate zero-length segment
returning the point-to-`A` distance) is described by the specification but
is not present in `src/main.py`; `find_closest_dimension` there never
measures distance to a line segment. -/

/-- Clamp to the unit interval. -/
def clamp01 (t : ℚ) : ℚ := max 0 (min 1 t)

/-- Raw projection parameter of `p` onto the segment `a→b` (0 for a
zero-length segment). -/
def segParam (p a b : Pt) : ℚ :=
  if distSq a b = 0 then 0
  else ((p.x - a.x) * (b.x - a.x) + (p.y - a.y) * (b.y - a.y)) / distSq a b

/-- The point of segment `a→b` closest to `p` (projection clamped to the
segment). -/
def segClosestPoint (p a b : Pt) : Pt :=
  ⟨a.x + clamp01 (segParam p a b) * (b.x - a.x),
   a.y + clamp01 (segParam p a b) * (b.y - a.y)⟩

/-- Squared point-to-segment distance. -/
def pointSegDistSq (p a b : Pt) : ℚ := distSq p (segClosestPoint p a b)

/-! ## DXF entities as read by the pickers

Only the attributes `find_closest_dimension`, `find_closest_text` and
`get_dimension_value` inspect are modelled.  A `DIMENSION` entity carries its
override text (`dim.dxf.text`), its computed measurement
(`dim.get_measurement()`, `none` when that raises or is not an `int`/`float`,
e.g. a `Vec3` for angular dimensions), the rendered primitives produced by
`virtual_entities()`, and its bounding-box center (`none` when
`ezdxf.bbox.extents` has no data).  `INSERT` entities recursively contain
their virtual entities. -/

/-- A rendered primitive of a dimension block (`dim.virtual_entities()`).
For `TEXT` the content is `dxf.text`, for `MTEXT` it is `plain_text()`;
`ins` is `dxf.insert` when the attribute exists. -/
inductive Prim where
  | text (content : String) (ins : Option Pt)
  | mtext (content : String) (ins : Option Pt)
  | line (a b : Pt)
  | other
deriving DecidableEq

/-- A layout entity as seen by the pickers. -/
inductive Entity where
  | dim (overrideText : String) (measurement : Option ℚ) (prims : List Prim)
      (bboxCenter : Option Pt)
  | insert (children : List Entity)
  | text (content : String) (ins : Option Pt)
  | mtext (content : String) (ins : Option Pt)
  | other

/-- The `for primitive in dim.virtual_entities()` loop of
`get_dimension_value`: the first `TEXT`/`MTEXT` primitive whose text contains
a signed decimal number yields that number. -/
def primsFirstNumber : List Prim → Option ℚ
  | [] => none
  | .text c _ :: rest =>
    (match firstNumberIn c with
     | some q => some q
     | none => primsFirstNumber rest)
  | .mtext c _ :: rest =>
    (match firstNumberIn c with
     | some q => some q
     | none => primsFirstNumber rest)
  | _ :: rest => primsFirstNumber rest

/-- `get_dimension_value` (src/main.py lines 264–288): the computed
measurement if numeric; else the first signed decimal number of the override
text (skipped when it is empty or the `"<>"` placeholder); else the first
signed decimal number of a rendered `TEXT`/`MTEXT` primitive. -/
def getDimensionValue (overrideText : String) (measurement : Option ℚ)
    (prims : List Prim) : Option ℚ :=
  match measurement with
  | some m => some m
  | none =>
    match (if overrideText ≠ "" ∧ overrideText ≠ "<>" then firstNumberIn overrideText
           else none) with
    | some q => some q
    | none => primsFirstNumber prims

/-- The fallback chain exactly as the specification words it (C6): computed
measurement if numeric, else first signed decimal number of the override
text, else first signed decimal number of the rendered label text — with no
special case for the `""`/`"<>"` override values. -/
def specDimensionValue (overrideText : String) (measurement : Option ℚ)
    (prims : List Prim) : Option ℚ :=
  match measurement with
  | some m => some m
  | none =>
    match firstNumberIn overrideText with
    | some q => some q
    | none => primsFirstNumber prims

/-- The `for sub in entity.virtual_entities(): if sub.dxftype() in
{'TEXT','MTEXT'}: text_entity = sub; break` loop: the first text primitive,
returning its optional insertion point. -/
def firstTextIns : List Prim → Option (Option Pt)
  | [] => none
  | .text _ ins :: _ => some ins
  | .mtext _ ins :: _ => some ins
  | _ :: rest => firstTextIns rest

/-- The distance score `find_closest_dimension` assigns to one dimension
entity: distance to the first text primitive's insertion point when it
exists, else to the bounding-box center; `none` (`float('inf')`) when
neither exists. -/
def dimDistSq (w : Pt) (prims : List Prim) (bb : Option Pt) : Option ℚ :=
  match firstTextIns prims with
  | some (some p) => some (distSq w p)
  | some none => Option.map (distSq w) bb
  | none => Option.map (distSq w) bb

/-- `find_dims_recursive`: the `(dist, value)` candidate pairs, in traversal
order, descending into `INSERT` entities; a dimension is kept when its score
is below the (squared) radius and its value resolves. -/
def findDims (w : Pt) (rsq : ℚ) : List Entity → List (ℚ × ℚ)
  | [] => []
  | .dim t m ps bb :: rest =>
    (match dimDistSq w ps bb with
     | some d =>
       if d < rsq then
         match getDimensionValue t m ps with
         | some v => [(d, v)]
         | none => []
       else []
     | none => []) ++ findDims w rsq rest
  | .insert cs :: rest => findDims w rsq cs ++ findDims w rsq rest
  | .text _ _ :: rest => findDims w rsq rest
  | .mtext _ _ :: rest => findDims w rsq rest
  | .other :: rest => findDims w rsq rest

/-- `find_closest_dimension` (src/main.py lines 261–320):
`found_dimensions.sort(key=lambda x: x[0])` (a stable sort by score) and the
value of the first entry, `none` when no candidate was found. -/
def findClosestDimension (w : Pt) (rsq : ℚ) (layout : List Entity) : Option ℚ :=
  match (findDims w rsq layout).mergeSort (fun a b => decide (a.1 ≤ b.1)) with
  | [] => none
  | p :: _ => some p.2

/-- The emitted signal payload `f"{found_dimensions[0][1]:.4f}"`. -/
def emitDimension (w : Pt) (rsq : ℚ) (layout : List Entity) : Option String :=
  (findClosestDimension w rsq layout).map fun v => ⟨fmtFixed4 v⟩

/-- `find_texts_recursive`: `(dist, content)` pairs for `TEXT`/`MTEXT`
entities having an insertion point within the (squared) radius, descending
into `INSERT` entities. -/
def findTexts (w : Pt) (rsq : ℚ) : List Entity → List (ℚ × String)
  | [] => []
  | .text c (some p) :: rest =>
    (if distSq w p < rsq then [(distSq w p, c)] else []) ++ findTexts w rsq rest
  | .text _ none :: rest => findTexts w rsq rest
  | .mtext c (some p) :: rest =>
    (if distSq w p < rsq then [(distSq w p, c)] else []) ++ findTexts w rsq rest
  | .mtext _ none :: rest => findTexts w rsq rest
  | .insert cs :: rest => findTexts w rsq cs ++ findTexts w rsq rest
  | .dim _ _ _ _ :: rest => findTexts w rsq rest
  | .other :: rest => findTexts w rsq rest

/-- `find_closest_text` (src/main.py lines 322–345): stable sort by distance
and the stripped content of the closest entity. -/
def findClosestText (w : Pt) (rsq : ℚ) (layout : List Entity) : Option String :=
  match (findTexts w rsq layout).mergeSort (fun a b => decide (a.1 ≤ b.1)) with
  | [] => none
  | p :: _ => some (pyStripS p.2)

/-- Every dimension of the layout (descending into `INSERT`s) lies at or
beyond the (squared) search radius — "no candidate within the radius". -/
def allDimsBeyond (w : Pt) (rsq : ℚ) : List Entity → Bool
  | [] => true
  | .dim _ _ ps bb :: rest =>
    (match dimDistSq w ps bb with
     | some d => decide (rsq ≤ d)
     | none => true) && allDimsBeyond w rsq rest
  | .insert cs :: rest => allDimsBeyond w rsq cs && allDimsBeyond w rsq rest
  | .text _ _ :: rest => allDimsBeyond w rsq rest
  | .mtext _ _ :: rest => allDimsBeyond w rsq rest
  | .other :: rest => allDimsBeyond w rsq rest

/-- Every `TEXT`/`MTEXT` of the layout lies at or beyond the radius. -/
def allTextsBeyond (w : Pt) (rsq : ℚ) : List Entity → Bool
  | [] => true
  | .text _ (some p) :: rest => decide (rsq ≤ distSq w p) && allTextsBeyond w rsq rest
  | .text _ none :: rest => allTextsBeyond w rsq rest
  | .mtext _ (some p) :: rest => decide (rsq ≤ distSq w p) && allTextsBeyond w rsq rest
  | .mtext _ none :: rest => allTextsBeyond w rsq rest
  | .insert cs :: rest => allTextsBeyond w rsq cs && allTextsBeyond w rsq rest
  | .dim _ _ _ _ :: rest => allTextsBeyond w rsq rest
  | .other :: rest => allTextsBeyond w rsq rest

/-- The per-primitive score the specification prescribes for C2:
point-to-point distance to a text anchor, point-to-segment distance to a
line (squared). -/
def primScoreSq (w : Pt) : Prim → Option ℚ
  | .text _ (some p) => some (distSq w p)
  | .mtext _ (some p) => some (distSq w p)
  | .line a b => some (pointSegDistSq w a b)
  | _ => none

/-- The per-entity score the specification prescribes for C2: the minimum
over the text-anchor distance and the distances to each leader/extension
line segment (squared).  Defined from the spec's words, for comparison with
`dimDistSq`, the score the code actually uses. -/
def specDimScoreSq (w : Pt) (prims : List Prim) : Option ℚ :=
  match prims.filterMap (primScoreSq w) with
  | [] => none
  | s :: rest => some (rest.foldl min s)

/-! ## Theorems about the pickers -/

/-- C6: `get_dimension_value` is exactly the fallback chain the specification
states — computed measurement if numeric, else the first signed decimal
number parsed out of the override text, else the first signed decimal number
parsed out of the rendered label text.  (The code additionally skips the
override text when it is empty or the `"<>"` placeholder, but neither
contains a decimal number, so the chain is unchanged.) -/
theorem dimension_value_fallback_chain (t : String) (m : Option ℚ) (ps : List Prim) :
    getDimensionValue t m ps = specDimensionValue t m ps := by
  cases m with
  | some q => rfl
  | none =>
    unfold getDimensionValue specDimensionValue
    by_cases h1 : t = ""
    · subst h1
      have h3 : (if ("" : String) ≠ "" ∧ ("" : String) ≠ "<>" then firstNumberIn ""
          else none) = none := by simp
      have h4 : firstNumberIn "" = none := rfl
      rw [h3, h4]
    · by_cases h2 : t = "<>"
      · subst h2
        have h3 : (if ("<>" : String) ≠ "" ∧ ("<>" : String) ≠ "<>" then firstNumberIn "<>"
            else none) = none := by simp
        have h4 : firstNumberIn "<>" = none := by decide
        rw [h3, h4]
      · rw [if_pos ⟨h1, h2⟩]

theorem mergeSort_head_key_min {β : Type} (l : List (ℚ × β)) (p : ℚ × β)
    (tl : List (ℚ × β))
    (h : l.mergeSort (fun a b => decide (a.1 ≤ b.1)) = p :: tl) :
    p ∈ l ∧ ∀ q ∈ l, p.1 ≤ q.1 := by
  have hperm := List.mergeSort_perm l (fun a b => decide (a.1 ≤ b.1))
  have hsorted := @List.sorted_mergeSort (ℚ × β) (fun a b => decide (a.1 ≤ b.1))
    (by intro a b c h1 h2
        simp only [decide_eq_true_eq] at h1 h2 ⊢
        exact le_trans h1 h2)
    (by intro a b
        simpa using le_total a.1 b.1) l
  rw [h] at hperm hsorted
  constructor
  · exact hperm.subset (List.mem_cons_self p tl)
  · intro q hq
    have hq' : q ∈ p :: tl := hperm.symm.subset hq
    rcases List.mem_cons.mp hq' with rfl | hq''
    · exact le_refl _
    · have := (List.pairwise_cons.mp hsorted).1 q hq''
      simpa using this

/-- `find_dims_recursive` processes a list entity by entity. -/
theorem findDims_cons (w : Pt) (rsq : ℚ) (e : Entity) (rest : List Entity) :
    findDims w rsq (e :: rest) = findDims w rsq [e] ++ findDims w rsq rest := by
  cases e <;> simp [findDims]

theorem findDims_subset_of_mem (w : Pt) (rsq : ℚ) (e : Entity) :
    ∀ L : List Entity, e ∈ L → ∀ x ∈ findDims w rsq [e], x ∈ findDims w rsq L := by
  intro L
  induction L with
  | nil => intro h; cases h
  | cons a rest ih =>
    intro hmem x hx
    rw [findDims_cons]
    rcases List.mem_cons.mp hmem with rfl | hmem'
    · exact List.mem_append_left _ hx
    · exact List.mem_append_right _ (ih hmem' x hx)

/-- C2 (amended): `find_closest_dimension` scores a dimension by the distance
to the first text primitive's insertion point (else the bounding-box center)
— never by point-to-segment distance to leader lines —, keeps it as a
candidate when that score is below the radius and its value resolves, emits
nothing when there is no candidate, and otherwise emits the value of a
candidate of globally smallest score, formatted to 4 decimal places. -/
theorem dim_picker_selects_global_min (w : Pt) (rsq : ℚ) (L : List Entity) :
    (findClosestDimension w rsq L = none ↔ findDims w rsq L = []) ∧
    (∀ v, findClosestDimension w rsq L = some v →
      ∃ p ∈ findDims w rsq L, p.2 = v ∧ ∀ q ∈ findDims w rsq L, p.1 ≤ q.1) ∧
    (emitDimension w rsq L =
      (findClosestDimension w rsq L).map fun v => (⟨fmtFixed4 v⟩ : String)) := by
  refine ⟨?_, ?_, rfl⟩
  · unfold findClosestDimension
    cases hs : (findDims w rsq L).mergeSort (fun a b => decide (a.1 ≤ b.1)) with
    | nil =>
      have hperm := List.mergeSort_perm (findDims w rsq L) (fun a b => decide (a.1 ≤ b.1))
      rw [hs] at hperm
      exact ⟨fun _ => hperm.symm.eq_nil, fun _ => rfl⟩
    | cons p tl =>
      have hperm := List.mergeSort_perm (findDims w rsq L) (fun a b => decide (a.1 ≤ b.1))
      rw [hs] at hperm
      simp only [reduceCtorEq, false_iff]
      intro hnil
      rw [hnil] at hperm
      exact List.cons_ne_nil p tl hperm.eq_nil
  · intro v hv
    unfold findClosestDimension at hv
    cases hs : (findDims w rsq L).mergeSort (fun a b => decide (a.1 ≤ b.1)) with
    | nil => rw [hs] at hv; cases hv
    | cons p tl =>
      rw [hs] at hv
      have hmin := mergeSort_head_key_min (findDims w rsq L) p tl hs
      refine ⟨p, hmin.1, ?_, hmin.2⟩
      exact Option.some.inj hv

set_option maxRecDepth 100000 in
unseal Rat.add Rat.sub Rat.mul Rat.inv Nat.gcd findDims List.merge List.mergeSort in
theorem dim_picker_selects_global_min_witness :
    ∃ p ∈ findDims ⟨0, 0⟩ 4 [Entity.dim "" (some 7) [Prim.text "7" (some ⟨1, 0⟩)] none],
      p.2 = 7 ∧ ∀ q ∈ findDims ⟨0, 0⟩ 4
        [Entity.dim "" (some 7) [Prim.text "7" (some ⟨1, 0⟩)] none], p.1 ≤ q.1 :=
  (dim_picker_selects_global_min ⟨0, 0⟩ 4
    [Entity.dim "" (some 7) [Prim.text "7" (some ⟨1, 0⟩)] none]).2.1 7 (by decide)

set_option maxRecDepth 100000 in
unseal Rat.add Rat.sub Rat.mul Rat.inv Nat.gcd findDims List.merge List.mergeSort in
/-- C2 (counterexample): a dimension whose leader segment passes through the
pick point while its text anchor is far away.  The spec's score (minimum over
anchor distance and point-to-segment distances) is `0`, below the radius, so
C2 as stated demands that the dimension be the selected candidate and its
value `5` be emitted; the code never measures segments, scores the entity at
the anchor distance `100² = 10000 ≥ 5²`, and emits nothing. -/
theorem dim_picker_ignores_segments_counterexample :
    specDimScoreSq ⟨0, 0⟩ [Prim.line ⟨0, -1⟩ ⟨0, 1⟩, Prim.text "5" (some ⟨100, 0⟩)]
        = some 0 ∧
    (0 : ℚ) < 25 ∧
    getDimensionValue "" (some 5) [Prim.line ⟨0, -1⟩ ⟨0, 1⟩, Prim.text "5" (some ⟨100, 0⟩)]
        = some 5 ∧
    findClosestDimension ⟨0, 0⟩ 25
      [Entity.dim "" (some 5) [Prim.line ⟨0, -1⟩ ⟨0, 1⟩, Prim.text "5" (some ⟨100, 0⟩)]
        none] = none ∧
    emitDimension ⟨0, 0⟩ 25
      [Entity.dim "" (some 5) [Prim.line ⟨0, -1⟩ ⟨0, 1⟩, Prim.text "5" (some ⟨100, 0⟩)]
        none] = none := by
  refine ⟨by decide, by decide, by decide, by decide, by decide⟩

/-- C5 (amended): if the pick point lies exactly at a dimension's text anchor
(score 0), the search radius is positive, the dimension's numeric value
resolves to `v`, and every other candidate lies at a strictly greater
distance, then `find_closest_dimension` selects that dimension and emits `v`. -/
theorem dim_at_anchor_selected (w : Pt) (rsq : ℚ) (L : List Entity)
    (t : String) (m : Option ℚ) (ps : List Prim) (bb : Option Pt) (v : ℚ)
    (hmem : Entity.dim t m ps bb ∈ L)
    (hanchor : dimDistSq w ps bb = some 0)
    (hval : getDimensionValue t m ps = some v)
    (hpos : 0 < rsq)
    (hothers : ∀ q ∈ findDims w rsq L, q = (0, v) ∨ 0 < q.1) :
    findClosestDimension w rsq L = some v ∧
    emitDimension w rsq L = some ⟨fmtFixed4 v⟩ := by
  have hsingle : findDims w rsq [Entity.dim t m ps bb] = [(0, v)] := by
    simp [findDims, hanchor, hval, if_pos hpos]
  have h0 : ((0 : ℚ), v) ∈ findDims w rsq L := by
    have := findDims_subset_of_mem w rsq (Entity.dim t m ps bb) L hmem
    exact this (0, v) (hsingle ▸ List.mem_cons_self _ _)
  have hmain : findClosestDimension w rsq L = some v := by
    unfold findClosestDimension
    cases hs : (findDims w rsq L).mergeSort (fun a b => decide (a.1 ≤ b.1)) with
    | nil =>
      have hperm := List.mergeSort_perm (findDims w rsq L) (fun a b => decide (a.1 ≤ b.1))
      rw [hs] at hperm
      rw [hperm.symm.eq_nil] at h0
      cases h0
    | cons p tl =>
      have hmin := mergeSort_head_key_min (findDims w rsq L) p tl hs
      have hple : p.1 ≤ 0 := hmin.2 (0, v) h0
      rcases hothers p hmin.1 with hp | hp
      · rw [hp]
      · exact absurd hp (not_lt.mpr hple)
  exact ⟨hmain, by rw [emitDimension, hmain]; rfl⟩

set_option maxRecDepth 100000 in
unseal Rat.add Rat.sub Rat.mul Rat.inv Nat.gcd findDims List.merge List.mergeSort in
theorem dim_at_anchor_selected_witness :
    findClosestDimension ⟨0, 0⟩ 4
      [Entity.dim "" (some 7) [Prim.text "7" (some ⟨0, 0⟩)] none,
       Entity.dim "" (some 9) [Prim.text "9" (some ⟨1, 0⟩)] none] = some 7 ∧
    emitDimension ⟨0, 0⟩ 4
      [Entity.dim "" (some 7) [Prim.text "7" (some ⟨0, 0⟩)] none,
       Entity.dim "" (some 9) [Prim.text "9" (some ⟨1, 0⟩)] none] = some ⟨fmtFixed4 7⟩ :=
  dim_at_anchor_selected ⟨0, 0⟩ 4
    [Entity.dim "" (some 7) [Prim.text "7" (some ⟨0, 0⟩)] none,
     Entity.dim "" (some 9) [Prim.text "9" (some ⟨1, 0⟩)] none]
    "" (some 7) [Prim.text "7" (some ⟨0, 0⟩)] none 7
    (List.mem_cons_self _ _) (by decide) (by decide) (by decide) (by decide)

set_option maxRecDepth 100000 in
unseal Rat.add Rat.sub Rat.mul Rat.inv Nat.gcd findDims List.merge List.mergeSort in
/-- C5 (counterexample): the pick point lies exactly at the text anchor of
the first dimension while the second dimension sits strictly farther away
(distance² 1 > 0) and the radius is positive (radius² 4).  C5 as stated
demands the first dimension be selected and its value emitted, but its value
resolution fails (no measurement, empty override, no numeric label), so the
code drops it and emits the farther dimension's value 7 instead. -/
theorem dim_at_anchor_counterexample :
    dimDistSq ⟨0, 0⟩ [Prim.text "" (some ⟨0, 0⟩)] none = some 0 ∧
    dimDistSq ⟨0, 0⟩ [Prim.text "7" (some ⟨1, 0⟩)] none = some 1 ∧
    getDimensionValue "" none [Prim.text "" (some ⟨0, 0⟩)] = none ∧
    findClosestDimension ⟨0, 0⟩ 4
      [Entity.dim "" none [Prim.text "" (some ⟨0, 0⟩)] none,
       Entity.dim "" (some 7) [Prim.text "7" (some ⟨1, 0⟩)] none] = some 7 :=
  ⟨by decide, by decide, by decide, by decide⟩

/-- `find_dims_recursive` returns no candidate when every dimension lies at
or beyond the search radius. -/
theorem findDims_eq_nil_of_beyond (w : Pt) (rsq : ℚ) :
    ∀ L : List Entity, allDimsBeyond w rsq L = true → findDims w rsq L = [] := by
  intro L
  induction L using allDimsBeyond.induct w rsq with
  | case1 => intro h; simp [findDims]
  | case2 t m ps bb rest ih =>
    intro h
    rw [allDimsBeyond] at h
    have h2 := (Bool.and_eq_true _ _ ▸ h).2
    have h1 := (Bool.and_eq_true _ _ ▸ h).1
    rw [findDims, ih h2, List.append_nil]
    cases hd : dimDistSq w ps bb with
    | none => rfl
    | some d =>
      rw [hd] at h1
      simp only [decide_eq_true_eq] at h1
      exact if_neg (not_lt.mpr h1)
  | case3 cs rest ih1 ih2 =>
    intro h
    rw [allDimsBeyond] at h
    rw [findDims, ih1 (Bool.and_eq_true _ _ ▸ h).1, ih2 (Bool.and_eq_true _ _ ▸ h).2]
    rfl
  | case4 c ins rest ih =>
    intro h
    rw [allDimsBeyond] at h
    rw [findDims]
    exact ih h
  | case5 c ins rest ih =>
    intro h
    rw [allDimsBeyond] at h
    rw [findDims]
    exact ih h
  | case6 rest ih =>
    intro h
    rw [allDimsBeyond] at h
    rw [findDims]
    exact ih h

/-- `find_texts_recursive` returns no candidate when every text entity lies
at or beyond the search radius. -/
theorem findTexts_eq_nil_of_beyond (w : Pt) (rsq : ℚ) :
    ∀ L : List Entity, allTextsBeyond w rsq L = true → findTexts w rsq L = [] := by
  intro L
  induction L using allTextsBeyond.induct w rsq with
  | case1 => intro h; simp [findTexts]
  | case2 c p rest ih =>
    intro h
    rw [allTextsBeyond] at h
    have h1 := (Bool.and_eq_true _ _ ▸ h).1
    simp only [decide_eq_true_eq] at h1
    rw [findTexts, ih (Bool.and_eq_true _ _ ▸ h).2, List.append_nil,
      if_neg (not_lt.mpr h1)]
  | case3 c rest ih =>
    intro h
    rw [allTextsBeyond] at h
    rw [findTexts]
    exact ih h
  | case4 c p rest ih =>
    intro h
    rw [allTextsBeyond] at h
    have h1 := (Bool.and_eq_true _ _ ▸ h).1
    simp only [decide_eq_true_eq] at h1
    rw [findTexts, ih (Bool.and_eq_true _ _ ▸ h).2, List.append_nil,
      if_neg (not_lt.mpr h1)]
  | case5 c rest ih =>
    intro h
    rw [allTextsBeyond] at h
    rw [findTexts]
    exact ih h
  | case6 cs rest ih1 ih2 =>
    intro h
    rw [allTextsBeyond] at h
    rw [findTexts, ih1 (Bool.and_eq_true _ _ ▸ h).1, ih2 (Bool.and_eq_true _ _ ▸ h).2]
    rfl
  | case7 t m ps bb rest ih =>
    intro h
    rw [allTextsBeyond] at h
    rw [findTexts]
    exact ih h
  | case8 rest ih =>
    intro h
    rw [allTextsBeyond] at h
    rw [findTexts]
    exact ih h

/-- C7: when no candidate lies within the search radius — every dimension in
dimension mode, every text entity in text mode, sits at or beyond the radius
— the pick emits nothing: a silent no-op, not an error. -/
theorem pick_outside_radius_is_silent (w : Pt) (rsq : ℚ) (L : List Entity) :
    (allDimsBeyond w rsq L = true →
      findClosestDimension w rsq L = none ∧ emitDimension w rsq L = none) ∧
    (allTextsBeyond w rsq L = true → findClosestText w rsq L = none) := by
  constructor
  · intro h
    have hnil := findDims_eq_nil_of_beyond w rsq L h
    have hmain : findClosestDimension w rsq L = none := by
      unfold findClosestDimension
      rw [hnil, List.mergeSort_nil]
    exact ⟨hmain, by rw [emitDimension, hmain]; rfl⟩
  · intro h
    have hnil := findTexts_eq_nil_of_beyond w rsq L h
    unfold findClosestText
    rw [hnil, List.mergeSort_nil]

set_option maxRecDepth 100000 in
set_option maxHeartbeats 1000000 in
unseal Rat.add Rat.sub Rat.mul Rat.inv Nat.gcd allDimsBeyond allTextsBeyond in
theorem pick_outside_radius_is_silent_witness :
    (findClosestDimension ⟨0, 0⟩ 4
        [Entity.dim "" (some 7) [Prim.text "7" (some ⟨10, 0⟩)] none,
         Entity.insert [Entity.text "far" (some ⟨0, 20⟩)]] = none ∧
      emitDimension ⟨0, 0⟩ 4
        [Entity.dim "" (some 7) [Prim.text "7" (some ⟨10, 0⟩)] none,
         Entity.insert [Entity.text "far" (some ⟨0, 20⟩)]] = none) ∧
    findClosestText ⟨0, 0⟩ 4
      [Entity.dim "" (some 7) [Prim.text "7" (some ⟨10, 0⟩)] none,
       Entity.insert [Entity.text "far" (some ⟨0, 20⟩)]] = none :=
  ⟨(pick_outside_radius_is_silent ⟨0, 0⟩ 4
      [Entity.dim "" (some 7) [Prim.text "7" (some ⟨10, 0⟩)] none,
       Entity.insert [Entity.text "far" (some ⟨0, 20⟩)]]).1 (by decide),
   (pick_outside_radius_is_silent ⟨0, 0⟩ 4
      [Entity.dim "" (some 7) [Prim.text "7" (some ⟨10, 0⟩)] none,
       Entity.insert [Entity.text "far" (some ⟨0, 20⟩)]]).2 (by decide)⟩

theorem sqrt_ratCast_25 : Real.sqrt ((25 : ℚ) : ℝ) = 5 := by
  rw [show ((25 : ℚ) : ℝ) = (5 : ℝ) ^ 2 by norm_num]
  exact Real.sqrt_sq (by norm_num)

set_option maxRecDepth 100000 in
unseal Rat.add Rat.sub Rat.mul Rat.inv Nat.gcd in
/-- C3: the point-to-segment distance routine clamps the projection parameter
to `[0,1]` and returns the Euclidean distance from the point to the clamped
point; a zero-length segment yields the point-to-`A` distance; and for
`A=(0,0)`, `B=(10,0)` the distances are 5 for `P=(5,5)`, 5 for `P=(-5,0)`
(clamped to `A`) and 5 for `P=(15,0)` (clamped to `B`). -/
theorem point_segment_distance_properties :
    (∀ p a b : Pt, 0 ≤ clamp01 (segParam p a b) ∧ clamp01 (segParam p a b) ≤ 1) ∧
    (∀ p a : Pt, pointSegDistSq p a a = distSq p a) ∧
    Real.sqrt ((pointSegDistSq ⟨5, 5⟩ ⟨0, 0⟩ ⟨10, 0⟩ : ℚ) : ℝ) = 5 ∧
    Real.sqrt ((pointSegDistSq ⟨-5, 0⟩ ⟨0, 0⟩ ⟨10, 0⟩ : ℚ) : ℝ) = 5 ∧
    Real.sqrt ((pointSegDistSq ⟨15, 0⟩ ⟨0, 0⟩ ⟨10, 0⟩ : ℚ) : ℝ) = 5 ∧
    segClosestPoint ⟨-5, 0⟩ ⟨0, 0⟩ ⟨10, 0⟩ = ⟨0, 0⟩ ∧
    segClosestPoint ⟨15, 0⟩ ⟨0, 0⟩ ⟨10, 0⟩ = ⟨10, 0⟩ := by
  refine ⟨?_, ?_, ?_, ?_, ?_, by decide, by decide⟩
  · intro p a b
    exact ⟨le_max_left 0 _, max_le (by norm_num) (min_le_left 1 _)⟩
  · intro p a
    have h0 : distSq a a = 0 := by simp [distSq]
    have hparam : segParam p a a = 0 := by rw [segParam, if_pos h0]
    have hclamp : clamp01 (segParam p a a) = 0 := by
      rw [hparam]
      simp [clamp01]
    have hpt : segClosestPoint p a a = a := by
      rw [segClosestPoint, hclamp]
      simp
    rw [pointSegDistSq, hpt]
  · rw [show pointSegDistSq ⟨5, 5⟩ ⟨0, 0⟩ ⟨10, 0⟩ = 25 by decide]
    exact sqrt_ratCast_25
  · rw [show pointSegDistSq ⟨-5, 0⟩ ⟨0, 0⟩ ⟨10, 0⟩ = 25 by decide]
    exact sqrt_ratCast_25
  · rw [show pointSegDistSq ⟨15, 0⟩ ⟨0, 0⟩ ⟨10, 0⟩ = 25 by decide]
    exact sqrt_ratCast_25

/-! ## `IsoFitsCalculator._load_data` (src/main.py lines 63–72)

File I/O is modelled by its outcome: the `open`/`json.load` of
`Data/tolerances.json` either raises `FileNotFoundError` (missing file),
raises `json.JSONDecodeError` (malformed contents), or yields the parsed
entry list. -/

/-- Outcome of reading and JSON-parsing the tolerance table file. -/
inductive TableFile where
  | missing
  | malformed
  | parsed (entries : List ToleranceEntry)

/-- Result of `_load_data`: either the process exits (the `except` branch
shows a fatal-error dialog and calls `sys.exit(1)`) or the calculator holds
the table and the combo-box fit list `[""] + sorted(set(toleranzklasse))`. -/
inductive LoadOutcome where
  | exitProcess (code : ℕ)
  | loaded (tolerances : List ToleranceEntry) (availableFits : List String)

/-- `_load_data`. -/
def loadData : TableFile → LoadOutcome
  | .missing => .exitProcess 1
  | .malformed => .exitProcess 1
  | .parsed entries =>
    .loaded entries
      ("" :: ((entries.map ToleranceEntry.toleranzklasse).dedup.mergeSort
        (fun a b => decide (a ≤ b))))

/-- C8: a missing or malformed tolerance-table file at load time terminates
the process with exit code 1; a successfully parsed table is kept; and a
lookup miss at runtime is the normal `none` result of `calculate`, not an
error. -/
theorem table_load_fatal_lookup_miss_normal :
    loadData .missing = .exitProcess 1 ∧
    loadData .malformed = .exitProcess 1 ∧
    (∀ entries, ∃ fits, loadData (.parsed entries) = .loaded entries fits) ∧
    (∀ table n fit, (∀ e ∈ table, ¬ entryMatches n fit e) → calculate table n fit = none) := by
  refine ⟨rfl, rfl, fun entries => ⟨_, rfl⟩, ?_⟩
  intro table n fit h
  unfold calculate
  by_cases ht : table.isEmpty
  · rw [if_pos ht]
  · rw [if_neg ht]
    exact (calculateScan_eq_none n fit table).mpr h

theorem table_load_fatal_lookup_miss_normal_witness :
    calculate [⟨"H7", 0, 3, 10, 4⟩] 5 "e8" = none :=
  table_load_fatal_lookup_miss_normal.2.2.2 [⟨"H7", 0, 3, 10, 4⟩] 5 "e8" (by decide)

/-- Python `text.replace(pat, "")` for a non-empty pattern: remove every
(leftmost, non-overlapping) occurrence of `pat`. -/
def removeAll (pat : List Char) : List Char → List Char
  | [] => []
  | c :: rest =>
    if h : pat ≠ [] ∧ pat.isPrefixOf (c :: rest) then removeAll pat ((c :: rest).drop pat.length)
    else c :: removeAll pat rest
termination_by l => l.length
decreasing_by
  · simp only [List.length_drop, List.length_cons]
    have : 1 ≤ pat.length := List.length_pos.mpr h.1
    omega
  · simp

/-- Python `pat in text` (substring test). -/
def containsSub (pat : List Char) : List Char → Bool
  | [] => pat.isPrefixOf []
  | c :: rest => pat.isPrefixOf (c :: rest) || containsSub pat rest

/-! ## `_save_protokoll` / `_load_protokoll_from_excel`
(src/main.py lines 639–693 and 582–637)

The spreadsheet is modelled as a partial map from cell coordinates to the
string contents (`str(value)` of what openpyxl returns); `write_cell` /
`_get_cell_value` resolve merged regions to their anchor cell, so the mapped
coordinates are taken to be anchors.  `mapping.json` is modelled with all
keys present.  The `QDate` of the date field is modelled as day/month/year
with `"dd.MM.yyyy"` rendering; Qt's calendar validity check is approximated
by range checks. -/

/-- `TOTAL_MEASURES` of `MessprotokollWidget`. -/
def totalMeasures : ℕ := 18

/-- The date held by the `QDateEdit`. -/
structure Datum where
  day : ℕ
  month : ℕ
  year : ℕ
deriving DecidableEq

/-- A value below 100 rendered as exactly two digits (`"dd"`, `"MM"`). -/
def pad2 (n : ℕ) : List Char := [Nat.digitChar (n / 10), Nat.digitChar (n % 10)]

/-- A value below 10000 rendered as exactly four digits (`"yyyy"`). -/
def pad4y (n : ℕ) : List Char :=
  [Nat.digitChar (n / 1000), Nat.digitChar (n / 100 % 10),
   Nat.digitChar (n / 10 % 10), Nat.digitChar (n % 10)]

/-- `self.date_edit.date().toString("dd.MM.yyyy")`. -/
def datumToString (d : Datum) : String :=
  ⟨pad2 d.day ++ '.' :: (pad2 d.month ++ '.' :: pad4y d.year)⟩

/-- The ranges within which the `"dd.MM.yyyy"` rendering is faithful and a
`QDate` is (approximately) valid. -/
def datumValid (d : Datum) : Prop :=
  1 ≤ d.day ∧ d.day ≤ 31 ∧ 1 ≤ d.month ∧ d.month ≤ 12 ∧ 1 ≤ d.year ∧ d.year ≤ 9999

instance (d : Datum) : Decidable (datumValid d) := by
  unfold datumValid; infer_instance

/-- `QDate.fromString(value_str, "dd.MM.yyyy")` followed by `setDate`, which
ignores invalid dates: strict two-digit day and month, four-digit year. -/
def datumFromString (s : String) : Option Datum :=
  if s.data.length = 10 then
    if s.data.getD 2 ' ' = '.' ∧ s.data.getD 5 ' ' = '.' ∧
       isDig (s.data.getD 0 ' ') ∧ isDig (s.data.getD 1 ' ') ∧
       isDig (s.data.getD 3 ' ') ∧ isDig (s.data.getD 4 ' ') ∧
       isDig (s.data.getD 6 ' ') ∧ isDig (s.data.getD 7 ' ') ∧
       isDig (s.data.getD 8 ' ') ∧ isDig (s.data.getD 9 ' ') then
      if datumValid ⟨10 * digitVal (s.data.getD 0 ' ') + digitVal (s.data.getD 1 ' '),
          10 * digitVal (s.data.getD 3 ' ') + digitVal (s.data.getD 4 ' '),
          natOfDigits [s.data.getD 6 ' ', s.data.getD 7 ' ',
            s.data.getD 8 ' ', s.data.getD 9 ' ']⟩ then
        some ⟨10 * digitVal (s.data.getD 0 ' ') + digitVal (s.data.getD 1 ' '),
          10 * digitVal (s.data.getD 3 ' ') + digitVal (s.data.getD 4 ' '),
          natOfDigits [s.data.getD 6 ' ', s.data.getD 7 ' ',
            s.data.getD 8 ' ', s.data.getD 9 ' ']⟩
      else none
    else none
  else none

/-- The form fields of `MessprotokollWidget` that save/load touch. -/
structure FormState where
  zeichnungsnummer : String
  auftrag : String
  pos : String
  datum : Datum
  oberflaeche : String
  bemerkungen : String
  nominal : List String
  isoFit : List String
  messmittel : List String
  upperTol : List String
  lowerTol : List String
  soll : List String

/-- The `header` object of `mapping.json`: cell coordinate per field. -/
structure HeaderCells where
  zeichnungsnummer : String
  auftrag : String
  position : String
  datum : String
  oberflaeche : String
  bemerkungen : String

/-- One entry of the `measures` array of `mapping.json`. -/
structure MeasureCells where
  nominal : String
  iso_fit : String
  messmittel : String
  upper_tol : String
  lower_tol : String
  soll : String

/-- The default used when indexing past the end of the measures array
(never reached under `min TOTAL_MEASURES len`). -/
def emptyMeasureCells : MeasureCells := ⟨"", "", "", "", "", ""⟩

/-- `mapping.json`. -/
structure CellMapping where
  header : HeaderCells
  measures : List MeasureCells

/-- A worksheet: cell coordinate → contents. -/
def Sheet : Type := String → Option String

/-- Apply a list of `write_cell` operations in order. -/
def applyWrites (sheet : Sheet) (ws : List (String × String)) : Sheet :=
  ws.foldl (fun s cv => fun c => if c = cv.1 then some cv.2 else s c) sheet

/-- The header writes of `_save_protokoll`: stripped drawing number, order
and position, the formatted date, and the prefixed surface-treatment and
remarks fields — the latter two only when non-empty. -/
def headerWrites (hm : HeaderCells) (st : FormState) : List (String × String) :=
  [(hm.zeichnungsnummer, pyStripS st.zeichnungsnummer),
   (hm.auftrag, pyStripS st.auftrag),
   (hm.position, pyStripS st.pos),
   (hm.datum, datumToString st.datum)] ++
  (if (pyStripS st.oberflaeche).data ≠ [] then
    [(hm.oberflaeche, "Oberflächenbehandlung: " ++ pyStripS st.oberflaeche)] else []) ++
  (if (pyStripS st.bemerkungen).data ≠ [] then
    [(hm.bemerkungen, "Bemerkungen: " ++ pyStripS st.bemerkungen)] else [])

/-- The writes of one measure slot. -/
def slotWrites (mc : MeasureCells) (st : FormState) (i : ℕ) : List (String × String) :=
  [(mc.nominal, st.nominal.getD i ""),
   (mc.iso_fit, st.isoFit.getD i ""),
   (mc.messmittel, st.messmittel.getD i ""),
   (mc.upper_tol, st.upperTol.getD i ""),
   (mc.lower_tol, st.lowerTol.getD i ""),
   (mc.soll, st.soll.getD i "")]

/-- The measure writes of `_save_protokoll`
(`for i in range(min(TOTAL_MEASURES, len(measure_map)))`). -/
def measureWrites (ms : List MeasureCells) (st : FormState) : List (String × String) :=
  (List.range (min totalMeasures ms.length)).flatMap
    (fun i => slotWrites (ms.getD i emptyMeasureCells) st i)

/-- `_save_protokoll`: aborts (`none`) unless drawing number, order and
position are non-empty after stripping; otherwise writes all mapped fields
into a copy of the template workbook. -/
def saveProtokoll (cm : CellMapping) (template : Sheet) (st : FormState) : Option Sheet :=
  if (pyStripS st.zeichnungsnummer).data = [] ∨ (pyStripS st.auftrag).data = [] ∨
     (pyStripS st.pos).data = [] then none
  else some (applyWrites template (headerWrites cm.header st ++ measureWrites cm.measures st))

/-- `_clear_ui` (run at the start of a load): empty fields, current date,
`"---"` SOLL labels. -/
def clearedState (today : Datum) : FormState :=
  { zeichnungsnummer := "", auftrag := "", pos := "", datum := today,
    oberflaeche := "", bemerkungen := "",
    nominal := List.replicate totalMeasures "",
    isoFit := List.replicate totalMeasures "",
    messmittel := List.replicate totalMeasures "",
    upperTol := List.replicate totalMeasures "",
    lowerTol := List.replicate totalMeasures "",
    soll := List.replicate totalMeasures "---" }

/-- The header loop of `_load_protokoll_from_excel`: each mapped cell is
read; `None` cells are skipped; values are `str(...).strip()`-normalised;
the surface-treatment and remarks prefixes are removed; the date is parsed
with `"dd.MM.yyyy"` (an invalid date leaves the date editor unchanged). -/
def loadHeader (hm : HeaderCells) (sheet : Sheet) (st : FormState) : FormState :=
  let st1 := match sheet hm.zeichnungsnummer with
    | none => st
    | some v => { st with zeichnungsnummer := pyStripS v }
  let st2 := match sheet hm.auftrag with
    | none => st1
    | some v => { st1 with auftrag := pyStripS v }
  let st3 := match sheet hm.position with
    | none => st2
    | some v => { st2 with pos := pyStripS v }
  let st4 := match sheet hm.datum with
    | none => st3
    | some v =>
      match datumFromString (pyStripS v) with
      | none => st3
      | some d => { st3 with datum := d }
  let st5 := match sheet hm.oberflaeche with
    | none => st4
    | some v =>
      { st4 with oberflaeche :=
          pyStripS ⟨removeAll "Oberflächenbehandlung:".data (pyStripS v).data⟩ }
  match sheet hm.bemerkungen with
  | none => st5
  | some v =>
    { st5 with bemerkungen := pyStripS ⟨removeAll "Bemerkungen:".data (pyStripS v).data⟩ }

/-- The per-slot loads: `str(value)` (no stripping), nominal values with the
decimal point rewritten to a comma; the `soll` cell is read but ignored. -/
def loadSlot (mc : MeasureCells) (sheet : Sheet) (i : ℕ) (st : FormState) : FormState :=
  let st1 := match sheet mc.nominal with
    | none => st
    | some v => { st with nominal := st.nominal.set i ⟨pyReplaceChar '.' ',' v.data⟩ }
  let st2 := match sheet mc.iso_fit with
    | none => st1
    | some v => { st1 with isoFit := st1.isoFit.set i v }
  let st3 := match sheet mc.messmittel with
    | none => st2
    | some v => { st2 with messmittel := st2.messmittel.set i v }
  let st4 := match sheet mc.upper_tol with
    | none => st3
    | some v => { st3 with upperTol := st3.upperTol.set i v }
  match sheet mc.lower_tol with
  | none => st4
  | some v => { st4 with lowerTol := st4.lowerTol.set i v }

/-- The measure loop of `_load_protokoll_from_excel`. -/
def loadMeasures (ms : List MeasureCells) (sheet : Sheet) (st : FormState) : FormState :=
  (List.range (min totalMeasures ms.length)).foldl
    (fun acc i => loadSlot (ms.getD i emptyMeasureCells) sheet i acc) st

/-- `_load_protokoll_from_excel`: clear the form, then apply the header and
measure loops. -/
def loadProtokoll (cm : CellMapping) (sheet : Sheet) (today : Datum) : FormState :=
  loadMeasures cm.measures sheet (loadHeader cm.header sheet (clearedState today))

/-! ## Round-trip lemmas -/

theorem applyWrites_not_mem (ws : List (String × String)) (template : Sheet) (c : String)
    (h : c ∉ ws.map Prod.fst) : applyWrites template ws c = template c := by
  induction ws generalizing template with
  | nil => rfl
  | cons w rest ih =>
    have hc : c ≠ w.1 := by
      intro he
      exact h (by simp [he])
    show applyWrites (fun c' => if c' = w.1 then some w.2 else template c') rest c = template c
    rw [ih _ (by intro hm; exact h (by simp [hm]))]
    simp [hc]

theorem applyWrites_mem (ws : List (String × String)) (template : Sheet) (c : String)
    (v : String) (hnd : (ws.map Prod.fst).Nodup) (hmem : (c, v) ∈ ws) :
    applyWrites template ws c = some v := by
  induction ws generalizing template with
  | nil => cases hmem
  | cons w rest ih =>
    rcases List.mem_cons.mp hmem with rfl | hmem'
    · have hnotin : c ∉ rest.map Prod.fst := by
        have := (List.nodup_cons.mp hnd).1
        simpa using this
      show applyWrites (fun c' => if c' = c then some v else template c') rest c = some v
      rw [applyWrites_not_mem _ _ _ hnotin]
      simp
    · exact ih _ (List.nodup_cons.mp hnd).2 hmem'

theorem dropWhile_eq_self_of_length (p : Char → Bool) (l : List Char)
    (h : (l.dropWhile p).length = l.length) : l.dropWhile p = l :=
  (List.dropWhile_suffix p).eq_of_length h

/-- A string equal to its own strip is already left- and right-stripped. -/
theorem pyStrip_fix (l : List Char) (h : pyStrip l = l) :
    l.dropWhile Char.isWhitespace = l ∧
    l.reverse.dropWhile Char.isWhitespace = l.reverse := by
  have hlen : (pyStrip l).length = l.length := by rw [h]
  have h1 : (pyStrip l).length ≤ ((l.dropWhile Char.isWhitespace).reverse.dropWhile
      Char.isWhitespace).length := by
    rw [pyStrip, List.length_reverse]
  have h2 : ((l.dropWhile Char.isWhitespace).reverse.dropWhile Char.isWhitespace).length ≤
      (l.dropWhile Char.isWhitespace).length := by
    have := (List.dropWhile_suffix (l := (l.dropWhile Char.isWhitespace).reverse)
      Char.isWhitespace).length_le
    simpa using this
  have h3 : (l.dropWhile Char.isWhitespace).length ≤ l.length :=
    (List.dropWhile_suffix Char.isWhitespace).length_le
  have hd : l.dropWhile Char.isWhitespace = l :=
    dropWhile_eq_self_of_length _ _ (by omega)
  refine ⟨hd, ?_⟩
  have h4 : pyStrip l = (l.reverse.dropWhile Char.isWhitespace).reverse := by
    rw [pyStrip, hd]
  have := h4 ▸ h
  calc l.reverse.dropWhile Char.isWhitespace
      = (l.reverse.dropWhile Char.isWhitespace).reverse.reverse := by rw [List.reverse_reverse]
    _ = l.reverse := by rw [this]

/-- Strip is the identity on `a ++ b` when `a` is left-stripped and
non-empty and `b` is right-stripped and non-empty. -/
theorem pyStrip_concat (a b : List Char)
    (ha : a.dropWhile Char.isWhitespace = a) (hane : a ≠ [])
    (hb : b.reverse.dropWhile Char.isWhitespace = b.reverse) (hbne : b ≠ []) :
    pyStrip (a ++ b) = a ++ b := by
  rw [pyStrip, List.dropWhile_append, ha,
    if_neg (by simpa [List.isEmpty_iff] using hane),
    List.reverse_append, List.dropWhile_append, hb,
    if_neg (by simpa [List.isEmpty_iff] using hbne)]
  rw [← List.reverse_append, List.reverse_reverse]

/-- Strip swallows one leading blank in front of a fully stripped,
non-empty string. -/
theorem pyStrip_blank_cons (l : List Char)
    (hl : l.dropWhile Char.isWhitespace = l)
    (hr : l.reverse.dropWhile Char.isWhitespace = l.reverse) :
    pyStrip (' ' :: l) = l := by
  rw [pyStrip, List.dropWhile_cons_of_pos (by decide), hl, hr, List.reverse_reverse]

theorem removeAll_not_contains (pat : List Char) :
    ∀ l : List Char, containsSub pat l = false → removeAll pat l = l := by
  intro l
  induction l with
  | nil => intro h; simp [removeAll]
  | cons c rest ih =>
    intro h
    rw [containsSub, Bool.or_eq_false_iff] at h
    rw [removeAll, dif_neg (by simp [h.1]), ih h.2]

theorem removeAll_leading (pat rest : List Char) (hne : pat ≠ [])
    (h : containsSub pat rest = false) : removeAll pat (pat ++ rest) = rest := by
  cases pat with
  | nil => exact absurd rfl hne
  | cons p ps =>
    have hpre : (p :: ps).isPrefixOf ((p :: ps) ++ rest) = true :=
      List.isPrefixOf_iff_prefix.mpr (List.prefix_append _ _)
    rw [List.cons_append, removeAll,
      dif_pos ⟨List.cons_ne_nil p ps, by rwa [← List.cons_append]⟩,
      ← List.cons_append, List.drop_left, removeAll_not_contains (p :: ps) rest h]

theorem digitChar_not_ws {n : ℕ} (h : n < 10) :
    Char.isWhitespace (Nat.digitChar n) = false := by
  interval_cases n <;> decide

theorem isDig_digitChar {n : ℕ} (h : n < 10) : isDig (Nat.digitChar n) = true := by
  interval_cases n <;> decide

theorem digitVal_digitChar {n : ℕ} (h : n < 10) : digitVal (Nat.digitChar n) = n := by
  interval_cases n <;> decide

theorem datumToString_data (d : Datum) :
    (datumToString d).data =
      [Nat.digitChar (d.day / 10), Nat.digitChar (d.day % 10), '.',
       Nat.digitChar (d.month / 10), Nat.digitChar (d.month % 10), '.',
       Nat.digitChar (d.year / 1000), Nat.digitChar (d.year / 100 % 10),
       Nat.digitChar (d.year / 10 % 10), Nat.digitChar (d.year % 10)] := rfl

theorem datumToString_stripped (d : Datum) (h : datumValid d) :
    pyStrip (datumToString d).data = (datumToString d).data := by
  obtain ⟨h1, h2, h3, h4, h5, h6⟩ := h
  have hfirst : Char.isWhitespace (Nat.digitChar (d.day / 10)) = false :=
    digitChar_not_ws (by omega)
  have hlast : Char.isWhitespace (Nat.digitChar (d.year % 10)) = false :=
    digitChar_not_ws (by omega)
  rw [datumToString_data, pyStrip, List.dropWhile_cons_of_neg (by simp [hfirst])]
  rw [show [Nat.digitChar (d.day / 10), Nat.digitChar (d.day % 10), '.',
       Nat.digitChar (d.month / 10), Nat.digitChar (d.month % 10), '.',
       Nat.digitChar (d.year / 1000), Nat.digitChar (d.year / 100 % 10),
       Nat.digitChar (d.year / 10 % 10), Nat.digitChar (d.year % 10)].reverse =
      [Nat.digitChar (d.year % 10), Nat.digitChar (d.year / 10 % 10),
       Nat.digitChar (d.year / 100 % 10), Nat.digitChar (d.year / 1000), '.',
       Nat.digitChar (d.month % 10), Nat.digitChar (d.month / 10), '.',
       Nat.digitChar (d.day % 10), Nat.digitChar (d.day / 10)] from by simp]
  rw [List.dropWhile_cons_of_neg (by simp [hlast])]
  simp

theorem datum_roundtrip (d : Datum) (h : datumValid d) :
    datumFromString (datumToString d) = some d := by
  obtain ⟨h1, h2, h3, h4, h5, h6⟩ := h
  have hdd : 10 * digitVal (Nat.digitChar (d.day / 10)) +
      digitVal (Nat.digitChar (d.day % 10)) = d.day := by
    rw [digitVal_digitChar (by omega), digitVal_digitChar (by omega)]; omega
  have hmm : 10 * digitVal (Nat.digitChar (d.month / 10)) +
      digitVal (Nat.digitChar (d.month % 10)) = d.month := by
    rw [digitVal_digitChar (by omega), digitVal_digitChar (by omega)]; omega
  have hyy : natOfDigits [Nat.digitChar (d.year / 1000), Nat.digitChar (d.year / 100 % 10),
      Nat.digitChar (d.year / 10 % 10), Nat.digitChar (d.year % 10)] = d.year := by
    simp only [natOfDigits, List.foldl, digitVal_digitChar (show d.year / 1000 < 10 by omega),
      digitVal_digitChar (show d.year / 100 % 10 < 10 by omega),
      digitVal_digitChar (show d.year / 10 % 10 < 10 by omega),
      digitVal_digitChar (show d.year % 10 < 10 by omega)]
    omega
  unfold datumFromString
  rw [datumToString_data]
  simp only [List.length_cons, List.length_nil, List.getD_cons_zero, List.getD_cons_succ]
  rw [if_pos (by norm_num)]
  rw [if_pos ⟨trivial, trivial, isDig_digitChar (by omega), isDig_digitChar (by omega),
    isDig_digitChar (by omega), isDig_digitChar (by omega),
    isDig_digitChar (by omega), isDig_digitChar (by omega),
    isDig_digitChar (by omega), isDig_digitChar (by omega)⟩]
  rw [hdd, hmm, hyy]
  rw [if_pos (show datumValid ⟨d.day, d.month, d.year⟩ from ⟨h1, h2, h3, h4, h5, h6⟩)]

/-- Iterated `List.set` over the indices `0, …, n-1`. -/
def applySets (l : List String) (n : ℕ) (f : ℕ → String) : List String :=
  (List.range n).foldl (fun acc i => acc.set i (f i)) l

theorem applySets_zero (l : List String) (f : ℕ → String) : applySets l 0 f = l := rfl

theorem applySets_succ (l : List String) (n : ℕ) (f : ℕ → String) :
    applySets l (n + 1) f = (applySets l n f).set n (f n) := by
  unfold applySets
  rw [List.range_succ, List.foldl_append]
  rfl

theorem applySets_length (l : List String) (n : ℕ) (f : ℕ → String) :
    (applySets l n f).length = l.length := by
  induction n with
  | zero => rfl
  | succ n ih => rw [applySets_succ, List.length_set, ih]

theorem applySets_getD_lt (l : List String) (f : ℕ → String) (n i : ℕ)
    (hi : i < n) (hlen : i < l.length) : (applySets l n f).getD i "" = f i := by
  induction n with
  | zero => omega
  | succ n ih =>
    rw [applySets_succ]
    rcases Nat.lt_or_ge i n with h | h
    · rw [List.getD_eq_getElem?_getD, List.getElem?_set_ne (by omega),
        ← List.getD_eq_getElem?_getD, ih h]
    · have hin : i = n := by omega
      subst hin
      rw [List.getD_eq_getElem?_getD,
        List.getElem?_set_self (by rw [applySets_length]; omega)]
      rfl

theorem loadSlot_spec (mc : MeasureCells) (sheet : Sheet) (i : ℕ) (st : FormState)
    (vN vI vM vU vL : String)
    (rN : sheet mc.nominal = some vN) (rI : sheet mc.iso_fit = some vI)
    (rM : sheet mc.messmittel = some vM) (rU : sheet mc.upper_tol = some vU)
    (rL : sheet mc.lower_tol = some vL) :
    loadSlot mc sheet i st = { st with
      nominal := st.nominal.set i ⟨pyReplaceChar '.' ',' vN.data⟩,
      isoFit := st.isoFit.set i vI,
      messmittel := st.messmittel.set i vM,
      upperTol := st.upperTol.set i vU,
      lowerTol := st.lowerTol.set i vL } := by
  unfold loadSlot
  rw [rN, rI, rM, rU, rL]

theorem loadMeasures_partial (ms : List MeasureCells) (sheet : Sheet) (st0 : FormState)
    (vN vI vM vU vL : ℕ → String)
    (hread : ∀ i < min totalMeasures ms.length,
      sheet (ms.getD i emptyMeasureCells).nominal = some (vN i) ∧
      sheet (ms.getD i emptyMeasureCells).iso_fit = some (vI i) ∧
      sheet (ms.getD i emptyMeasureCells).messmittel = some (vM i) ∧
      sheet (ms.getD i emptyMeasureCells).upper_tol = some (vU i) ∧
      sheet (ms.getD i emptyMeasureCells).lower_tol = some (vL i)) :
    ∀ n, n ≤ min totalMeasures ms.length →
      (List.range n).foldl (fun acc i => loadSlot (ms.getD i emptyMeasureCells) sheet i acc)
          st0 = { st0 with
        nominal := applySets st0.nominal n (fun i => ⟨pyReplaceChar '.' ',' (vN i).data⟩),
        isoFit := applySets st0.isoFit n vI,
        messmittel := applySets st0.messmittel n vM,
        upperTol := applySets st0.upperTol n vU,
        lowerTol := applySets st0.lowerTol n vL } := by
  intro n
  induction n with
  | zero => intro h; rfl
  | succ n ih =>
    intro h
    rw [List.range_succ, List.foldl_append]
    rw [ih (by omega)]
    obtain ⟨rN, rI, rM, rU, rL⟩ := hread n (by omega)
    rw [List.foldl_cons, List.foldl_nil,
      loadSlot_spec _ _ _ _ _ _ _ _ _ rN rI rM rU rL]
    simp only [applySets_succ]

/-- `loadMeasures` given that every mapped measure cell reads back the listed
values. -/
theorem loadMeasures_spec (ms : List MeasureCells) (sheet : Sheet) (st0 : FormState)
    (vN vI vM vU vL : ℕ → String)
    (hread : ∀ i < min totalMeasures ms.length,
      sheet (ms.getD i emptyMeasureCells).nominal = some (vN i) ∧
      sheet (ms.getD i emptyMeasureCells).iso_fit = some (vI i) ∧
      sheet (ms.getD i emptyMeasureCells).messmittel = some (vM i) ∧
      sheet (ms.getD i emptyMeasureCells).upper_tol = some (vU i) ∧
      sheet (ms.getD i emptyMeasureCells).lower_tol = some (vL i)) :
    loadMeasures ms sheet st0 = { st0 with
      nominal := applySets st0.nominal (min totalMeasures ms.length)
        (fun i => ⟨pyReplaceChar '.' ',' (vN i).data⟩),
      isoFit := applySets st0.isoFit (min totalMeasures ms.length) vI,
      messmittel := applySets st0.messmittel (min totalMeasures ms.length) vM,
      upperTol := applySets st0.upperTol (min totalMeasures ms.length) vU,
      lowerTol := applySets st0.lowerTol (min totalMeasures ms.length) vL } :=
  loadMeasures_partial ms sheet st0 vN vI vM vU vL hread _ le_rfl

/-- The transform `_load_protokoll_from_excel` applies to the date cell:
parse, keep the old date when invalid. -/
def loadedDatum (old : Datum) (v : String) : Datum :=
  match datumFromString (pyStripS v) with
  | some d => d
  | none => old

/-- The transform applied to an optionally-present prefixed header cell
(surface treatment, remarks): strip, remove the prefix, strip again; keep
the old value when the cell is blank. -/
def loadedPrefixed (pat : List Char) (old : String) (o : Option String) : String :=
  match o with
  | none => old
  | some v => pyStripS ⟨removeAll pat (pyStripS v).data⟩

theorem loadHeader_spec (hm : HeaderCells) (sheet : Sheet) (st : FormState)
    (vz va vp vd : String) (ob be : Option String)
    (rz : sheet hm.zeichnungsnummer = some vz)
    (ra : sheet hm.auftrag = some va)
    (rp : sheet hm.position = some vp)
    (rd : sheet hm.datum = some vd)
    (ro : sheet hm.oberflaeche = ob)
    (rb : sheet hm.bemerkungen = be) :
    loadHeader hm sheet st = { st with
      zeichnungsnummer := pyStripS vz,
      auftrag := pyStripS va,
      pos := pyStripS vp,
      datum := loadedDatum st.datum vd,
      oberflaeche := loadedPrefixed "Oberflächenbehandlung:".data st.oberflaeche ob,
      bemerkungen := loadedPrefixed "Bemerkungen:".data st.bemerkungen be } := by
  simp only [loadHeader, rz, ra, rp, rd, ro, rb, loadedDatum, loadedPrefixed]
  cases datumFromString (pyStripS vd) <;> cases ob <;> cases be <;> rfl

/-- All cell coordinates the mapping uses, header first, then the measure
slots in order. -/
def mappingCells (cm : CellMapping) : List String :=
  [cm.header.zeichnungsnummer, cm.header.auftrag, cm.header.position, cm.header.datum,
   cm.header.oberflaeche, cm.header.bemerkungen] ++
  (List.range (min totalMeasures cm.measures.length)).flatMap (fun i =>
    [(cm.measures.getD i emptyMeasureCells).nominal,
     (cm.measures.getD i emptyMeasureCells).iso_fit,
     (cm.measures.getD i emptyMeasureCells).messmittel,
     (cm.measures.getD i emptyMeasureCells).upper_tol,
     (cm.measures.getD i emptyMeasureCells).lower_tol,
     (cm.measures.getD i emptyMeasureCells).soll])

theorem headerWrites_cells_sublist (hm : HeaderCells) (st : FormState) :
    ((headerWrites hm st).map Prod.fst).Sublist
      [hm.zeichnungsnummer, hm.auftrag, hm.position, hm.datum, hm.oberflaeche,
       hm.bemerkungen] := by
  have hX : ((if (pyStripS st.oberflaeche).data ≠ [] then
      [(hm.oberflaeche, "Oberflächenbehandlung: " ++ pyStripS st.oberflaeche)]
      else []).map Prod.fst).Sublist [hm.oberflaeche] := by
    split
    · exact List.Sublist.refl _
    · exact List.nil_sublist _
  have hY : ((if (pyStripS st.bemerkungen).data ≠ [] then
      [(hm.bemerkungen, "Bemerkungen: " ++ pyStripS st.bemerkungen)]
      else []).map Prod.fst).Sublist [hm.bemerkungen] := by
    split
    · exact List.Sublist.refl _
    · exact List.nil_sublist _
  unfold headerWrites
  rw [List.map_append, List.map_append]
  exact ((List.Sublist.refl _).append hX).append hY

theorem measureWrites_cells (ms : List MeasureCells) (st : FormState) :
    (measureWrites ms st).map Prod.fst =
      (List.range (min totalMeasures ms.length)).flatMap (fun i =>
        [(ms.getD i emptyMeasureCells).nominal,
         (ms.getD i emptyMeasureCells).iso_fit,
         (ms.getD i emptyMeasureCells).messmittel,
         (ms.getD i emptyMeasureCells).upper_tol,
         (ms.getD i emptyMeasureCells).lower_tol,
         (ms.getD i emptyMeasureCells).soll]) := by
  unfold measureWrites
  rw [List.map_flatMap]
  rfl

theorem writes_cells_sublist (cm : CellMapping) (st : FormState) :
    (((headerWrites cm.header st ++ measureWrites cm.measures st).map Prod.fst)).Sublist
      (mappingCells cm) := by
  rw [List.map_append]
  exact (headerWrites_cells_sublist _ _).append
    (measureWrites_cells cm.measures st ▸ List.Sublist.refl _)

theorem mem_headerWrites_cells (hm : HeaderCells) (st : FormState) (c : String)
    (h : c ∈ (headerWrites hm st).map Prod.fst) :
    c = hm.zeichnungsnummer ∨ c = hm.auftrag ∨ c = hm.position ∨ c = hm.datum ∨
    (c = hm.oberflaeche ∧ (pyStripS st.oberflaeche).data ≠ []) ∨
    (c = hm.bemerkungen ∧ (pyStripS st.bemerkungen).data ≠ []) := by
  unfold headerWrites at h
  rw [List.map_append, List.map_append] at h
  rcases List.mem_append.mp h with h1 | h1
  · rcases List.mem_append.mp h1 with h2 | h2
    · simp only [List.map_cons, List.map_nil, List.mem_cons, List.not_mem_nil,
        or_false] at h2
      tauto
    · by_cases hc : (pyStripS st.oberflaeche).data ≠ []
      · rw [if_pos hc] at h2
        simp only [List.map_cons, List.map_nil, List.mem_singleton] at h2
        tauto
      · rw [if_neg hc] at h2
        simp at h2
  · by_cases hc : (pyStripS st.bemerkungen).data ≠ []
    · rw [if_pos hc] at h1
      simp only [List.map_cons, List.map_nil, List.mem_singleton] at h1
      tauto
    · rw [if_neg hc] at h1
      simp at h1

set_option maxHeartbeats 1000000 in
/-- C9: saving the form to a spreadsheet and loading that spreadsheet back
reproduces the form fields, up to the documented normalisation: header
fields round-trip verbatim (being stripped already), the date round-trips
through its `dd.MM.yyyy` rendering, the surface-treatment and remarks fields
have their prefixes stripped away again, measure combo texts round-trip
verbatim, and nominal field texts come back with `'.'` rewritten to `','`.
Requires the mapping to use pairwise distinct cells and the template to be
blank at the two optionally-written cells. -/
theorem protokoll_roundtrip
    (cm : CellMapping) (template : Sheet) (st : FormState) (today : Datum)
    (hnodup : (mappingCells cm).Nodup)
    (htob : template cm.header.oberflaeche = none)
    (htbe : template cm.header.bemerkungen = none)
    (hz : pyStripS st.zeichnungsnummer = st.zeichnungsnummer)
    (hzne : st.zeichnungsnummer ≠ "")
    (hau : pyStripS st.auftrag = st.auftrag) (haune : st.auftrag ≠ "")
    (hpo : pyStripS st.pos = st.pos) (hpone : st.pos ≠ "")
    (hdat : datumValid st.datum)
    (hob : pyStripS st.oberflaeche = st.oberflaeche)
    (hobc : containsSub "Oberflächenbehandlung:".data st.oberflaeche.data = false)
    (hbe : pyStripS st.bemerkungen = st.bemerkungen)
    (hbec : containsSub "Bemerkungen:".data st.bemerkungen.data = false) :
    saveProtokoll cm template st ≠ none ∧
    ∀ sheet, saveProtokoll cm template st = some sheet →
      (loadProtokoll cm sheet today).zeichnungsnummer = st.zeichnungsnummer ∧
      (loadProtokoll cm sheet today).auftrag = st.auftrag ∧
      (loadProtokoll cm sheet today).pos = st.pos ∧
      (loadProtokoll cm sheet today).datum = st.datum ∧
      (loadProtokoll cm sheet today).oberflaeche = st.oberflaeche ∧
      (loadProtokoll cm sheet today).bemerkungen = st.bemerkungen ∧
      ∀ i, i < min totalMeasures cm.measures.length →
        (loadProtokoll cm sheet today).nominal.getD i "" =
          ⟨pyReplaceChar '.' ',' (st.nominal.getD i "").data⟩ ∧
        (loadProtokoll cm sheet today).isoFit.getD i "" = st.isoFit.getD i "" ∧
        (loadProtokoll cm sheet today).messmittel.getD i "" = st.messmittel.getD i "" ∧
        (loadProtokoll cm sheet today).upperTol.getD i "" = st.upperTol.getD i "" ∧
        (loadProtokoll cm sheet today).lowerTol.getD i "" = st.lowerTol.getD i "" := by
  have hzd : st.zeichnungsnummer.data ≠ [] := fun he => hzne (String.ext he)
  have had : st.auftrag.data ≠ [] := fun he => haune (String.ext he)
  have hpd : st.pos.data ≠ [] := fun he => hpone (String.ext he)
  have hguard : ¬ ((pyStripS st.zeichnungsnummer).data = [] ∨
      (pyStripS st.auftrag).data = [] ∨ (pyStripS st.pos).data = []) := by
    rw [hz, hau, hpo]
    push_neg
    exact ⟨hzd, had, hpd⟩
  have hsave : saveProtokoll cm template st =
      some (applyWrites template
        (headerWrites cm.header st ++ measureWrites cm.measures st)) := by
    unfold saveProtokoll
    rw [if_neg hguard]
  refine ⟨by rw [hsave]; exact Option.some_ne_none _, ?_⟩
  intro sheet hsheet
  rw [hsave] at hsheet
  have hsheet' : sheet = applyWrites template
      (headerWrites cm.header st ++ measureWrites cm.measures st) :=
    (Option.some.inj hsheet).symm
  subst hsheet'
  set W := headerWrites cm.header st ++ measureWrites cm.measures st with hWdef
  have hWnd : (W.map Prod.fst).Nodup := hnodup.sublist (writes_cells_sublist cm st)
  have hnd := hnodup
  rw [mappingCells, List.nodup_append] at hnd
  obtain ⟨hnd6, hndM, hdisj⟩ := hnd
  simp only [List.nodup_cons, List.mem_cons, List.not_mem_nil, or_false, not_or,
    List.nodup_nil, and_true, List.mem_singleton] at hnd6
  have hmemz : (cm.header.zeichnungsnummer, pyStripS st.zeichnungsnummer) ∈ W :=
    List.mem_append_left _ (by unfold headerWrites; simp)
  have hmema : (cm.header.auftrag, pyStripS st.auftrag) ∈ W :=
    List.mem_append_left _ (by unfold headerWrites; simp)
  have hmemp : (cm.header.position, pyStripS st.pos) ∈ W :=
    List.mem_append_left _ (by unfold headerWrites; simp)
  have hmemd : (cm.header.datum, datumToString st.datum) ∈ W :=
    List.mem_append_left _ (by unfold headerWrites; simp)
  have rz := applyWrites_mem W template _ _ hWnd hmemz
  have ra := applyWrites_mem W template _ _ hWnd hmema
  have rp := applyWrites_mem W template _ _ hWnd hmemp
  have rd := applyWrites_mem W template _ _ hWnd hmemd
  have hreads : ∀ i < min totalMeasures cm.measures.length,
      applyWrites template W (cm.measures.getD i emptyMeasureCells).nominal =
        some (st.nominal.getD i "") ∧
      applyWrites template W (cm.measures.getD i emptyMeasureCells).iso_fit =
        some (st.isoFit.getD i "") ∧
      applyWrites template W (cm.measures.getD i emptyMeasureCells).messmittel =
        some (st.messmittel.getD i "") ∧
      applyWrites template W (cm.measures.getD i emptyMeasureCells).upper_tol =
        some (st.upperTol.getD i "") ∧
      applyWrites template W (cm.measures.getD i emptyMeasureCells).lower_tol =
        some (st.lowerTol.getD i "") := by
    intro i hi
    refine ⟨applyWrites_mem W template _ _ hWnd (List.mem_append_right _ ?_),
      applyWrites_mem W template _ _ hWnd (List.mem_append_right _ ?_),
      applyWrites_mem W template _ _ hWnd (List.mem_append_right _ ?_),
      applyWrites_mem W template _ _ hWnd (List.mem_append_right _ ?_),
      applyWrites_mem W template _ _ hWnd (List.mem_append_right _ ?_)⟩ <;>
    · unfold measureWrites
      exact List.mem_flatMap.mpr ⟨i, List.mem_range.mpr hi, by simp [slotWrites]⟩
  have hobdata : pyStrip st.oberflaeche.data = st.oberflaeche.data :=
    congrArg String.data hob
  have hbedata : pyStrip st.bemerkungen.data = st.bemerkungen.data :=
    congrArg String.data hbe
  have hObRead : applyWrites template W cm.header.oberflaeche =
      (if st.oberflaeche.data ≠ [] then
        some ("Oberflächenbehandlung: " ++ st.oberflaeche) else none) := by
    by_cases hc : st.oberflaeche.data = []
    · rw [if_neg (by simpa using hc)]
      have hnotmem : cm.header.oberflaeche ∉ W.map Prod.fst := by
        intro hmem
        rw [hWdef, List.map_append] at hmem
        rcases List.mem_append.mp hmem with h1 | h1
        · rcases mem_headerWrites_cells _ _ _ h1 with h2 | h2 | h2 | h2 | h2 | h2
          · exact hnd6.1.2.2.2.1 h2.symm
          · exact hnd6.2.1.2.2.1 h2.symm
          · exact hnd6.2.2.1.2.1 h2.symm
          · exact hnd6.2.2.2.1.1 h2.symm
          · exact h2.2 (by rw [hob]; exact hc)
          · exact hnd6.2.2.2.2.1 h2.1
        · rw [measureWrites_cells] at h1
          exact hdisj (by simp) h1
      rw [applyWrites_not_mem _ _ _ hnotmem, htob]
    · rw [if_pos (by simpa using hc)]
      have hmem : (cm.header.oberflaeche,
          "Oberflächenbehandlung: " ++ pyStripS st.oberflaeche) ∈ W := by
        refine List.mem_append_left _ ?_
        unfold headerWrites
        refine List.mem_append_left _ (List.mem_append_right _ ?_)
        rw [if_pos (by rw [hob]; simpa using hc)]
        simp
      have := applyWrites_mem W template _ _ hWnd hmem
      rw [hob] at this
      exact this
  have hBeRead : applyWrites template W cm.header.bemerkungen =
      (if st.bemerkungen.data ≠ [] then
        some ("Bemerkungen: " ++ st.bemerkungen) else none) := by
    by_cases hc : st.bemerkungen.data = []
    · rw [if_neg (by simpa using hc)]
      have hnotmem : cm.header.bemerkungen ∉ W.map Prod.fst := by
        intro hmem
        rw [hWdef, List.map_append] at hmem
        rcases List.mem_append.mp hmem with h1 | h1
        · rcases mem_headerWrites_cells _ _ _ h1 with h2 | h2 | h2 | h2 | h2 | h2
          · exact hnd6.1.2.2.2.2 h2.symm
          · exact hnd6.2.1.2.2.2 h2.symm
          · exact hnd6.2.2.1.2.2 h2.symm
          · exact hnd6.2.2.2.1.2 h2.symm
          · exact hnd6.2.2.2.2.1 h2.1.symm
          · exact h2.2 (by rw [hbe]; exact hc)
        · rw [measureWrites_cells] at h1
          exact hdisj (by simp) h1
      rw [applyWrites_not_mem _ _ _ hnotmem, htbe]
    · rw [if_pos (by simpa using hc)]
      have hmem : (cm.header.bemerkungen,
          "Bemerkungen: " ++ pyStripS st.bemerkungen) ∈ W := by
        refine List.mem_append_left _ ?_
        unfold headerWrites
        refine List.mem_append_right _ ?_
        rw [if_pos (by rw [hbe]; simpa using hc)]
        simp
      have := applyWrites_mem W template _ _ hWnd hmem
      rw [hbe] at this
      exact this
  unfold loadProtokoll
  rw [loadHeader_spec cm.header _ (clearedState today)
    (pyStripS st.zeichnungsnummer) (pyStripS st.auftrag) (pyStripS st.pos)
    (datumToString st.datum) _ _ rz ra rp rd hObRead hBeRead]
  rw [loadMeasures_spec cm.measures _ _
    (fun i => st.nominal.getD i "") (fun i => st.isoFit.getD i "")
    (fun i => st.messmittel.getD i "") (fun i => st.upperTol.getD i "")
    (fun i => st.lowerTol.getD i "") hreads]
  have hdatum : loadedDatum (clearedState today).datum (datumToString st.datum) =
      st.datum := by
    unfold loadedDatum
    have hstrip : pyStripS (datumToString st.datum) = datumToString st.datum := by
      unfold pyStripS
      rw [datumToString_stripped _ hdat]
    rw [hstrip, datum_roundtrip _ hdat]
  have hObVal : loadedPrefixed "Oberflächenbehandlung:".data
      (clearedState today).oberflaeche
      (if st.oberflaeche.data ≠ [] then
        some ("Oberflächenbehandlung: " ++ st.oberflaeche) else none) =
      st.oberflaeche := by
    by_cases hc : st.oberflaeche.data = []
    · rw [if_neg (by simpa using hc)]
      show "" = st.oberflaeche
      exact (String.ext hc).symm
    · rw [if_pos (by simpa using hc)]
      have hfix := pyStrip_fix _ hobdata
      show pyStripS ⟨removeAll "Oberflächenbehandlung:".data
        (pyStripS ("Oberflächenbehandlung: " ++ st.oberflaeche)).data⟩ = st.oberflaeche
      have hstrip1 : pyStripS ("Oberflächenbehandlung: " ++ st.oberflaeche) =
          "Oberflächenbehandlung: " ++ st.oberflaeche := by
        unfold pyStripS
        rw [show ("Oberflächenbehandlung: " ++ st.oberflaeche).data =
          "Oberflächenbehandlung: ".data ++ st.oberflaeche.data from
          String.data_append _ _]
        rw [pyStrip_concat _ _ (by decide) (by decide) hfix.2 hc]
        rfl
      rw [hstrip1]
      rw [show ("Oberflächenbehandlung: " ++ st.oberflaeche).data =
        "Oberflächenbehandlung:".data ++ (' ' :: st.oberflaeche.data) from by
          rw [String.data_append,
            show "Oberflächenbehandlung: ".data =
              "Oberflächenbehandlung:".data ++ [' '] from rfl,
            List.append_assoc]
          rfl]
      rw [removeAll_leading _ _ (by decide) (by
        rw [containsSub,
          show ("Oberflächenbehandlung:".data.isPrefixOf
            (' ' :: st.oberflaeche.data)) = false from by simp [List.isPrefixOf]]
        simpa using hobc)]
      show (⟨pyStrip (' ' :: st.oberflaeche.data)⟩ : String) = st.oberflaeche
      rw [pyStrip_blank_cons _ hfix.1 hfix.2]
  have hBeVal : loadedPrefixed "Bemerkungen:".data
      (clearedState today).bemerkungen
      (if st.bemerkungen.data ≠ [] then
        some ("Bemerkungen: " ++ st.bemerkungen) else none) =
      st.bemerkungen := by
    by_cases hc : st.bemerkungen.data = []
    · rw [if_neg (by simpa using hc)]
      show "" = st.bemerkungen
      exact (String.ext hc).symm
    · rw [if_pos (by simpa using hc)]
      have hfix := pyStrip_fix _ hbedata
      show pyStripS ⟨removeAll "Bemerkungen:".data
        (pyStripS ("Bemerkungen: " ++ st.bemerkungen)).data⟩ = st.bemerkungen
      have hstrip1 : pyStripS ("Bemerkungen: " ++ st.bemerkungen) =
          "Bemerkungen: " ++ st.bemerkungen := by
        unfold pyStripS
        rw [show ("Bemerkungen: " ++ st.bemerkungen).data =
          "Bemerkungen: ".data ++ st.bemerkungen.data from String.data_append _ _]
        rw [pyStrip_concat _ _ (by decide) (by decide) hfix.2 hc]
        rfl
      rw [hstrip1]
      rw [show ("Bemerkungen: " ++ st.bemerkungen).data =
        "Bemerkungen:".data ++ (' ' :: st.bemerkungen.data) from by
          rw [String.data_append,
            show "Bemerkungen: ".data = "Bemerkungen:".data ++ [' '] from rfl,
            List.append_assoc]
          rfl]
      rw [removeAll_leading _ _ (by decide) (by
        rw [containsSub,
          show ("Bemerkungen:".data.isPrefixOf
            (' ' :: st.bemerkungen.data)) = false from by simp [List.isPrefixOf]]
        simpa using hbec)]
      show (⟨pyStrip (' ' :: st.bemerkungen.data)⟩ : String) = st.bemerkungen
      rw [pyStrip_blank_cons _ hfix.1 hfix.2]
  refine ⟨by rw [show pyStripS (pyStripS st.zeichnungsnummer) = st.zeichnungsnummer from
      by rw [hz, hz]], by rw [show pyStripS (pyStripS st.auftrag) = st.auftrag from
      by rw [hau, hau]], by rw [show pyStripS (pyStripS st.pos) = st.pos from
      by rw [hpo, hpo]], hdatum, hObVal, hBeVal, ?_⟩
  intro i hi
  have hlen : i < totalMeasures := lt_of_lt_of_le hi (min_le_left _ _)
  have hlenN : i < (List.replicate totalMeasures ("" : String)).length := by
    rw [List.length_replicate]; exact hlen
  exact ⟨applySets_getD_lt _ _ _ _ hi hlenN, applySets_getD_lt _ _ _ _ hi hlenN,
    applySets_getD_lt _ _ _ _ hi hlenN, applySets_getD_lt _ _ _ _ hi hlenN,
    applySets_getD_lt _ _ _ _ hi hlenN⟩

/-- Concrete mapping used to witness the round trip. -/
def roundtripMapping : CellMapping :=
  ⟨⟨"A1", "B1", "C1", "D1", "E1", "F1"⟩, [⟨"A2", "B2", "C2", "D2", "E2", "F2"⟩]⟩

/-- Blank template workbook. -/
def roundtripTemplate : Sheet := fun _ => none

/-- Concrete filled form used to witness the round trip. -/
def roundtripState : FormState :=
  { zeichnungsnummer := "Z99", auftrag := "A7", pos := "P1",
    datum := ⟨5, 3, 2024⟩, oberflaeche := "glatt", bemerkungen := "",
    nominal := ["1.5"], isoFit := ["H7"], messmittel := ["Zeiss"],
    upperTol := ["+0,020"], lowerTol := ["-0,010"], soll := ["1,5050"] }

/-- The sheet the save produces for the witness data. -/
def roundtripSheet : Sheet :=
  applyWrites roundtripTemplate
    (headerWrites roundtripMapping.header roundtripState ++
      measureWrites roundtripMapping.measures roundtripState)

theorem protokoll_roundtrip_witness :
    saveProtokoll roundtripMapping roundtripTemplate roundtripState ≠ none ∧
    (loadProtokoll roundtripMapping roundtripSheet ⟨12, 10, 2026⟩).zeichnungsnummer
      = "Z99" ∧
    (loadProtokoll roundtripMapping roundtripSheet ⟨12, 10, 2026⟩).datum = ⟨5, 3, 2024⟩ ∧
    (loadProtokoll roundtripMapping roundtripSheet ⟨12, 10, 2026⟩).oberflaeche
      = "glatt" ∧
    (loadProtokoll roundtripMapping roundtripSheet ⟨12, 10, 2026⟩).nominal.getD 0 ""
      = "1,5" := by
  have h := protokoll_roundtrip roundtripMapping roundtripTemplate roundtripState
    ⟨12, 10, 2026⟩ (by decide) rfl rfl (by decide) (by decide) (by decide) (by decide)
    (by decide) (by decide) (by decide) (by decide) (by decide) (by decide) (by decide)
  have hs : saveProtokoll roundtripMapping roundtripTemplate roundtripState =
      some roundtripSheet := by
    unfold saveProtokoll
    rw [if_neg (by decide)]
    rfl
  obtain ⟨h1, h2⟩ := h
  obtain ⟨c1, c2, c3, c4, c5, c6, c7⟩ := h2 roundtripSheet hs
  exact ⟨h1, c1, c4, c5, ((c7 0 (by decide)).1).trans (by decide)⟩
